import Mathlib

/-!
SOCKS5 proxy (`main.go`): shallow embedding and verified properties

The Go program is embedded as pure functions over an explicit connection
state.  A client connection carries the bytes the peer still sends, the error
the transport reports once they are exhausted, the outcome of the coming
`Write` calls and a log of the effects performed so far (every `Write` call
with its payload, whether it succeeds or not, every `net.Dial` call with its
target, the call of `relay` and the deferred `Close` calls).  A read that would block for ever is not modelled: the peer
sends finitely many bytes and the transport then reports an error.

Bytes are `Fin 256`.  A Go `string` is a byte sequence; it is represented by
the Lean string whose k-th character has the k-th byte as its code point, so
ASCII text reads as itself.
-/

namespace Socks5

/-! ## Data model -/

/-- A Go `byte`. -/
abbrev Byte := Fin 256

def socks5Version : Byte := 0x05
def noAuth : Byte := 0x00
def connectCmd : Byte := 0x01
def ipv4Addr : Byte := 0x01
def domainAddr : Byte := 0x03
def ipv6Addr : Byte := 0x04

/-- Go `error` values the program can return. -/
inductive Error where
  /-- `io.EOF` -/
  | eof
  /-- `io.ErrUnexpectedEOF` -/
  | unexpectedEOF
  /-- any other error reported by the transport or by the dialer -/
  | transport (code : Nat)
  /-- `errors.New(text)` -/
  | new (text : String)
  deriving DecidableEq, Repr

/-- A `*net.TCPAddr` that is not nil: `IP` (a byte slice) and `Port` (an `int`). -/
structure TCPAddr where
  ip : List Byte
  port : Int
  deriving DecidableEq, Repr

/-- An established destination connection as returned by `net.Dial("tcp", ·)`;
`ident` tells connections apart, `localAddr` is what `LocalAddr()` returns, which for
a TCP connection is a `*net.TCPAddr` that is not nil. -/
structure TargetConn where
  ident : Nat
  localAddr : TCPAddr
  deriving DecidableEq, Repr

/-- Observable effects of the handlers, in program order. -/
inductive Event where
  /-- a `conn.Write(data)` call on the client connection -/
  | write (data : List Byte)
  /-- a `net.Dial("tcp", target)` call -/
  | dial (target : String)
  /-- a call `relay(conn, target)`, from its start to its return -/
  | relay (target : TargetConn)
  /-- the deferred `targetConn.Close()` -/
  | closeTarget (target : TargetConn)
  /-- the deferred `conn.Close()` on the client connection -/
  | closeClient
  deriving DecidableEq, Repr

/-- The client connection.
* `input`: bytes the peer sends that have not been read yet;
* `readErr`: the error `Read` reports once `input` is exhausted (`io.EOF` for an orderly close);
* `writeErrs`: result of the coming `Write` calls, first call first (`none` is success);
  once the list is used up every further `Write` succeeds;
* `log`: effects performed so far. -/
structure Conn where
  input : List Byte
  readErr : Error
  writeErrs : List (Option Error)
  log : List Event
  deriving DecidableEq, Repr

/-- The dialer `net.Dial("tcp", ·)`: an established connection or an error. -/
abbrev Dialer := String → Except Error TargetConn

/-! ## Transport and library primitives -/

/-- Result of the next `Write` call on the connection. -/
def Conn.nextWriteErr (conn : Conn) : Option Error :=
  match conn.writeErrs with
  | [] => none
  | r :: _ => r

/-- The call `conn.Write(data)`: logged, its error (if any) returned. -/
def Conn.write (conn : Conn) (data : List Byte) : Option Error × Conn :=
  (conn.nextWriteErr,
    { conn with writeErrs := conn.writeErrs.tail, log := conn.log ++ [Event.write data] })

/-- The call `io.ReadFull(conn, buf)` with `len(buf) = n`.  With `n = 0` nothing is read.
Otherwise `n` bytes are delivered when the peer sends that many; on a shorter
stream everything left is consumed and the error is `readErr`, turned into
`io.ErrUnexpectedEOF` when it is `io.EOF` and at least one byte had arrived. -/
def readFull (conn : Conn) (n : Nat) : Except Error (List Byte) × Conn :=
  if n = 0 then (.ok [], conn)
  else if n ≤ conn.input.length then
    (.ok (conn.input.take n), { conn with input := conn.input.drop n })
  else
    (.error (if conn.input.length > 0 ∧ conn.readErr = Error.eof then Error.unexpectedEOF
             else conn.readErr),
      { conn with input := [] })

/-- Conversion `string(bytes)`. -/
def goString (bs : List Byte) : String :=
  String.mk (bs.map fun b => Char.ofNat b.val)

/-- The call `net.IP.To4`: a 4-byte address is itself, a 16-byte IPv4-mapped address
(ten zero bytes, `ff ff`) is its last four bytes, anything else is nil. -/
def to4 (ip : List Byte) : Option (List Byte) :=
  if ip.length = 4 then some ip
  else if ip.length = 16 ∧ (ip.take 10).all (fun b => b = 0) ∧ ip.getD 10 0 = 0xff
      ∧ ip.getD 11 0 = 0xff then
    some ((ip.drop 12).take 4)
  else none

/-- Dotted decimal text of a 4-byte address. -/
def string4 (p : List Byte) : String :=
  toString (p.getD 0 0).val ++ "." ++ toString (p.getD 1 0).val ++ "."
    ++ toString (p.getD 2 0).val ++ "." ++ toString (p.getD 3 0).val

/-- The i-th 16-bit group of a 16-byte address. -/
def v6u16 (ip : List Byte) (i : Nat) : Nat :=
  (ip.getD (2 * i) 0).val * 256 + (ip.getD (2 * i + 1) 0).val

/-- Lower-case hexadecimal without leading zeros. -/
def hexOf (n : Nat) : String :=
  String.mk (Nat.toDigits 16 n)

/-- First index from `j` on (below 8) whose group is not zero. -/
def zeroRunEnd (ip : List Byte) : Nat → Nat → Nat
  | 0, j => j
  | fuel + 1, j => if j < 8 ∧ v6u16 ip j = 0 then zeroRunEnd ip fuel (j + 1) else j

/-- The longest run of at least two zero groups, leftmost on ties, as `(start, end)`;
`(255, 255)` when there is none. -/
def longestZeroRun (ip : List Byte) : Nat × Nat :=
  (List.range 8).foldl
    (fun (z : Nat × Nat) i =>
      let j := zeroRunEnd ip 8 i
      if j - i ≥ 2 ∧ j - i > z.2 - z.1 then (i, j) else z)
    (255, 255)

/-- Output loop of the IPv6 text form: groups from `i` on, the zero run written as `::`. -/
def appendGroups (ip : List Byte) (zs ze : Nat) : Nat → Nat → String → String
  | 0, _, ret => ret
  | fuel + 1, i, ret =>
    if i < 8 then
      if i = zs then
        if ze ≥ 8 then ret ++ "::"
        else appendGroups ip zs ze fuel (ze + 1) (ret ++ "::" ++ hexOf (v6u16 ip ze))
      else
        appendGroups ip zs ze fuel (i + 1)
          ((if i > 0 then ret ++ ":" else ret) ++ hexOf (v6u16 ip i))
    else ret

/-- IPv6 text form of a 16-byte address. -/
def string6 (ip : List Byte) : String :=
  let z := longestZeroRun ip
  appendGroups ip z.1 z.2 8 0 ""

/-- Two lower-case hexadecimal digits per byte. -/
def hexString (bs : List Byte) : String :=
  String.join (bs.map fun b => hexOf (b.val / 16) ++ hexOf (b.val % 16))

/-- The call `net.IP(ip).String()`. -/
def ipString (ip : List Byte) : String :=
  if ip.length = 0 then "<nil>"
  else if ip.length ≠ 4 ∧ ip.length ≠ 16 then "?" ++ hexString ip
  else
    match to4 ip with
    | some p4 => string4 p4
    | none => string6 ip

/-- The call `binary.BigEndian.Uint16(b)`. -/
def bigEndianUint16 (b : List Byte) : Nat :=
  (b.getD 0 0).val * 256 + (b.getD 1 0).val

/-- The conversion `uint16(n)` of an `int`. -/
def uint16 (n : Int) : Nat :=
  (n % 65536).toNat

/-- The call `binary.BigEndian.PutUint16(b[at:at+2], v)` on the slice `b`. -/
def putUint16 (b : List Byte) (pos : Nat) (v : Nat) : List Byte :=
  (b.set pos (Fin.ofNat (v / 256))).set (pos + 1) (Fin.ofNat v)

/-- The call `copy(dst[lo:hi], src)`. -/
def copyInto (dst : List Byte) (lo hi : Nat) (src : List Byte) : List Byte :=
  (List.range (min (hi - lo) src.length)).foldl
    (fun d i => d.set (lo + i) (src.getD i 0)) dst

/-- The call `fmt.Sprintf("%s:%d", host, port)`. -/
def sprintfHostPort (host : String) (port : Nat) : String :=
  host ++ ":" ++ toString port

/-! ## The handlers -/

/-- The loop of `handleHandshake` over the offered methods: true as soon as one is `noAuth`. -/
def scanNoAuth : List Byte → Bool
  | [] => false
  | m :: ms => if m = noAuth then true else scanNoAuth ms

/-- Embedding of `handleHandshake`: the returned error (`none` is nil) and the connection after. -/
def handleHandshake (conn : Conn) : Option Error × Conn :=
  match readFull conn 2 with
  | (.error err, conn) => (some err, conn)
  | (.ok buf, conn) =>
    if buf.getD 0 0 ≠ socks5Version then
      (some (Error.new "unsupported SOCKS version"), conn)
    else
      let numMethods := (buf.getD 1 0).val
      match readFull conn numMethods with
      | (.error err, conn) => (some err, conn)
      | (.ok methods, conn) =>
        let hasNoAuth := scanNoAuth methods
        if !hasNoAuth then
          let conn := (conn.write [socks5Version, 0xFF]).2
          (some (Error.new "no acceptable auth method"), conn)
        else
          conn.write [socks5Version, noAuth]

/-- The buffer `reply` that `sendReply` builds before writing it; a nil `addr` is `none`. -/
def replyFrame (status : Byte) (addr : Option TCPAddr) : List Byte :=
  let reply : List Byte := List.replicate 10 0
  let reply := reply.set 0 socks5Version
  let reply := reply.set 1 status
  let reply := reply.set 2 0x00
  let reply := reply.set 3 ipv4Addr
  match addr with
  | none => reply
  | some addr =>
    let reply :=
      match to4 addr.ip with
      | none => reply
      | some ip => copyInto reply 4 8 ip
    putUint16 reply 8 (uint16 addr.port)

/-- Embedding of `sendReply`: the frame is written, the result of `Write` is dropped. -/
def sendReply (conn : Conn) (status : Byte) (addr : Option TCPAddr) : Conn :=
  (conn.write (replyFrame status addr)).2

/-- Embedding of `handleRequest`; `dial` stands for `net.Dial("tcp", ·)`.
The result is the pair `(net.Conn, error)` as an `Except` and the connection after. -/
def handleRequest (dial : Dialer) (conn : Conn) : Except Error TargetConn × Conn :=
  match readFull conn 4 with
  | (.error err, conn) => (.error err, conn)
  | (.ok buf, conn) =>
    if buf.getD 0 0 ≠ socks5Version then
      (.error (Error.new "unsupported SOCKS version"), conn)
    else if buf.getD 1 0 ≠ connectCmd then
      (.error (Error.new "unsupported command"), sendReply conn 0x07 none)
    else
      let addrType := buf.getD 3 0
      -- the `switch`: the decoded host and the connection after, or the early return
      let decoded : Except (Except Error TargetConn × Conn) (String × Conn) :=
        if addrType = ipv4Addr then
          match readFull conn 4 with
          | (.error err, conn) => .error (.error err, conn)
          | (.ok addr, conn) => .ok (ipString addr, conn)
        else if addrType = domainAddr then
          match readFull conn 1 with
          | (.error err, conn) => .error (.error err, conn)
          | (.ok lenBuf, conn) =>
            match readFull conn (lenBuf.getD 0 0).val with
            | (.error err, conn) => .error (.error err, conn)
            | (.ok domain, conn) => .ok (goString domain, conn)
        else if addrType = ipv6Addr then
          match readFull conn 16 with
          | (.error err, conn) => .error (.error err, conn)
          | (.ok addr, conn) => .ok (ipString addr, conn)
        else
          .error (.error (Error.new "unsupported address type"), sendReply conn 0x08 none)
      match decoded with
      | .error ret => ret
      | .ok (host, conn) =>
        match readFull conn 2 with
        | (.error err, conn) => (.error err, conn)
        | (.ok portBuf, conn) =>
          let port := bigEndianUint16 portBuf
          let target := sprintfHostPort host port
          let conn := { conn with log := conn.log ++ [Event.dial target] }
          match dial target with
          | .error err => (.error err, sendReply conn 0x05 none)
          | .ok targetConn =>
            let localAddr := targetConn.localAddr
            (.ok targetConn, sendReply conn 0x00 (some localAddr))

/-! ## Relay: the two copy goroutines and the `done` channel

`relay` is embedded as a transition system: its own statements (the two `go`
statements, then the receive `<-done`) interleave with the steps of the two
goroutines (`io.Copy` returns, then `done <- struct{}{}`). -/

/-- Where a copy goroutine of `relay` stands. -/
inductive CopyTask where
  /-- its `go` statement has not run yet -/
  | unstarted
  /-- inside `io.Copy` -/
  | copying
  /-- `io.Copy` has returned, the send on `done` is still to come -/
  | copied
  /-- `done <- struct{}{}` performed, the goroutine is over -/
  | signalled
  deriving DecidableEq, Repr

/-- Where the function `relay` itself stands. -/
inductive RelayPc where
  /-- before the first `go` statement -/
  | spawnFirst
  /-- before the second `go` statement -/
  | spawnSecond
  /-- at `<-done` -/
  | receive
  /-- `relay` has returned -/
  | returned
  deriving DecidableEq, Repr

/-- State of a `relay` call: the goroutine copying client to target, the goroutine
copying target to client, the number of values buffered in `done`, and `relay` itself. -/
structure RelayState where
  toTarget : CopyTask
  toClient : CopyTask
  done : Nat
  pc : RelayPc
  deriving DecidableEq, Repr

/-- Capacity of the channel: `make(chan struct{}, 2)`. -/
def doneCap : Nat := 2

/-- One scheduling choice. -/
inductive RelayStep where
  /-- `relay` runs its next statement -/
  | main
  /-- `io.Copy(target, client)` returns (end of stream or error) -/
  | endToTarget
  /-- the first goroutine performs `done <- struct{}{}` -/
  | sendToTarget
  /-- `io.Copy(client, target)` returns (end of stream or error) -/
  | endToClient
  /-- the second goroutine performs `done <- struct{}{}` -/
  | sendToClient
  deriving DecidableEq, Repr

/-- The step relation as a function: `none` when the chosen step cannot run
(a receive on the empty channel and a send on the full channel block). -/
def relayStep (s : RelayState) : RelayStep → Option RelayState
  | .main =>
    match s.pc with
    | .spawnFirst => some { s with toTarget := .copying, pc := .spawnSecond }
    | .spawnSecond => some { s with toClient := .copying, pc := .receive }
    | .receive => if s.done > 0 then some { s with done := s.done - 1, pc := .returned } else none
    | .returned => none
  | .endToTarget =>
    if s.toTarget = .copying then some { s with toTarget := .copied } else none
  | .sendToTarget =>
    if s.toTarget = .copied ∧ s.done < doneCap then
      some { s with toTarget := .signalled, done := s.done + 1 }
    else none
  | .endToClient =>
    if s.toClient = .copying then some { s with toClient := .copied } else none
  | .sendToClient =>
    if s.toClient = .copied ∧ s.done < doneCap then
      some { s with toClient := .signalled, done := s.done + 1 }
    else none

/-- Entry of `relay`: the channel is empty, no goroutine started. -/
def relayInit : RelayState :=
  ⟨.unstarted, .unstarted, 0, .spawnFirst⟩

/-- Runs a schedule; `none` when one of its steps cannot run. -/
def relayRun : RelayState → List RelayStep → Option RelayState
  | s, [] => some s
  | s, a :: rest =>
    match relayStep s a with
    | none => none
    | some s2 => relayRun s2 rest

/-- Number of goroutines that have performed their send on `done`. -/
def signalledCount (s : RelayState) : Nat :=
  (if s.toTarget = .signalled then 1 else 0) + (if s.toClient = .signalled then 1 else 0)

/-- Invariant of the reachable states: every value sent on `done` is still buffered or
was taken by the one receive, and a goroutine does not run before its `go` statement. -/
def relayInv (s : RelayState) : Prop :=
  signalledCount s = s.done + (if s.pc = .returned then 1 else 0)
  ∧ (s.pc = .spawnFirst → s.toTarget = .unstarted)
  ∧ (s.pc = .spawnFirst ∨ s.pc = .spawnSecond → s.toClient = .unstarted)

/-! ## Connection supervisor -/

/-- The call `relay(client, target)` as `handleConnection` sees it: one event from
its start to its return.  Its body holds the two `go` statements and the receive
and no `Close` call; the bytes it moves in either direction are not part of the
log, and its goroutines are the transition system above. -/
def relay (client : Conn) (target : TargetConn) : Conn :=
  { client with log := client.log ++ [Event.relay target] }

/-- The deferred `conn.Close()`. -/
def Conn.close (conn : Conn) : Conn :=
  { conn with log := conn.log ++ [Event.closeClient] }

/-- The deferred `targetConn.Close()`, recorded in the log of the client connection. -/
def closeTarget (conn : Conn) (target : TargetConn) : Conn :=
  { conn with log := conn.log ++ [Event.closeTarget target] }

/-- Embedding of `handleConnection`: the connection state when it returns.  The
deferred calls run at every return, last deferred first; `log.Printf` is left out. -/
def handleConnection (dial : Dialer) (conn : Conn) : Conn :=
  match handleHandshake conn with
  | (some _, conn) => conn.close
  | (none, conn) =>
    match handleRequest dial conn with
    | (.error _, conn) => conn.close
    | (.ok targetConn, conn) =>
      let conn := relay conn targetConn
      (closeTarget conn targetConn).close

/-- The call `net.JoinHostPort(host, port)`: a host that contains a colon is taken
for an IPv6 literal and put in square brackets. -/
def joinHostPort (host : String) (port : String) : String :=
  if ':' ∈ host.data then "[" ++ host ++ "]:" ++ port
  else host ++ ":" ++ port

/-! ## Specification side: the standard IPv6 text form

The text form of RFC 5952, written from its rules and not from the library
routine: eight 16-bit groups in lower-case hexadecimal without leading zeros,
separated by colons; the longest run of two or more zero groups, the first one
among runs of equal length, is replaced by `::`. -/

/-- Number of zero groups at the head of the list. -/
def zeroRunAt : List Nat → Nat
  | [] => 0
  | g :: gs => if g = 0 then zeroRunAt gs + 1 else 0

/-- Start and length of the run that is shortened: the longest run of zero groups, the
first among equals; `none` when no run has two groups. -/
def shortenedRun (gs : List Nat) : Option (Nat × Nat) :=
  let runs := (List.range gs.length).map (fun i => (i, zeroRunAt (gs.drop i)))
  let best := runs.foldl (fun acc r => if acc.2 < r.2 then r else acc) (0, 0)
  if 2 ≤ best.2 then some best else none

/-- The texts joined by single colons. -/
def colonJoin : List String → String
  | [] => ""
  | [x] => x
  | x :: y :: xs => x ++ ":" ++ colonJoin (y :: xs)

/-- Specification side: the standard text form of a 16-byte IPv6 address. -/
def specIPv6Text (ip : List Byte) : String :=
  let gs := (List.range 8).map (v6u16 ip)
  match shortenedRun gs with
  | none => colonJoin (gs.map hexOf)
  | some (i, n) =>
    colonJoin ((gs.take i).map hexOf) ++ "::" ++ colonJoin ((gs.drop (i + n)).map hexOf)

/-! ## Wire format of a request, used to state what the handlers are given -/

/-- Number of address bytes that follow a request header of a supported address type,
`rest` being the bytes after the header: 4 for IPv4, the length byte plus the length
it announces for a domain, 16 for IPv6. -/
def addrLen (atyp : Byte) (rest : List Byte) : Nat :=
  if atyp = ipv4Addr then 4
  else if atyp = domainAddr then 1 + (rest.getD 0 0).val
  else 16

/-- Host text of the address bytes `addr` of a request of address type `atyp`:
the domain bytes after the length byte as text, or the text form of the IP address. -/
def hostOf (atyp : Byte) (addr : List Byte) : String :=
  if atyp = domainAddr then goString (addr.drop 1) else ipString addr

/-- The address type is one of the three of the `switch` in `handleRequest`. -/
def supportedAddrType (atyp : Byte) : Prop :=
  atyp = ipv4Addr ∨ atyp = domainAddr ∨ atyp = ipv6Addr

instance (atyp : Byte) : Decidable (supportedAddrType atyp) := by
  unfold supportedAddrType
  infer_instance

/-! ## Transport lemmas -/

theorem readFull_exact (conn : Conn) (xs rest : List Byte) (n : Nat)
    (hin : conn.input = xs ++ rest) (hlen : xs.length = n) :
    readFull conn n = (.ok xs, { conn with input := rest }) := by
  subst hlen
  unfold readFull
  by_cases h0 : xs.length = 0
  · have hx : xs = [] := List.length_eq_zero.mp h0
    subst hx
    simp only [List.nil_append] at hin
    simp [← hin]
  · have hle : xs.length ≤ conn.input.length := by simp [hin]
    simp [h0, hle, hin]

theorem readFull_short (conn : Conn) (n : Nat) (hlt : conn.input.length < n) :
    readFull conn n =
      (.error (if conn.input.length > 0 ∧ conn.readErr = Error.eof then Error.unexpectedEOF
               else conn.readErr),
        { conn with input := [] }) := by
  unfold readFull
  have h0 : n ≠ 0 := by omega
  have hle : ¬ n ≤ conn.input.length := by omega
  simp [h0, hle]

theorem scanNoAuth_iff (ms : List Byte) : scanNoAuth ms = true ↔ noAuth ∈ ms := by
  induction ms with
  | nil => simp [scanNoAuth]
  | cons m ms ih =>
    unfold scanNoAuth
    by_cases hm : m = noAuth
    · simp [hm]
    · have hne : ¬ noAuth = m := fun h => hm h.symm
      simp [hm, hne, ih]

theorem write_log (conn : Conn) (data : List Byte) :
    (conn.write data).2.log = conn.log ++ [Event.write data] := rfl

theorem write_input (conn : Conn) (data : List Byte) :
    (conn.write data).2.input = conn.input := rfl

theorem write_err (conn : Conn) (data : List Byte) :
    (conn.write data).1 = conn.nextWriteErr := rfl

/-! ## Handshake -/

/-- What `handleHandshake` does on a version-5 greeting that arrives in full. -/
theorem handleHandshake_greeting (conn : Conn) (n : Byte) (methods rest : List Byte)
    (hin : conn.input = socks5Version :: n :: (methods ++ rest))
    (hlen : methods.length = n.val) :
    handleHandshake conn =
      if scanNoAuth methods then
        ({ conn with input := rest } : Conn).write [socks5Version, noAuth]
      else
        (some (Error.new "no acceptable auth method"),
          (({ conn with input := rest } : Conn).write [socks5Version, 0xFF]).2) := by
  have h1 : readFull conn 2 = (.ok [socks5Version, n], { conn with input := methods ++ rest }) :=
    readFull_exact conn [socks5Version, n] (methods ++ rest) 2 (by simpa using hin) rfl
  have h2 : readFull ({ conn with input := methods ++ rest } : Conn) n.val
      = (.ok methods, { conn with input := rest }) :=
    readFull_exact _ methods rest n.val rfl hlen
  unfold handleHandshake
  simp only [h1]
  simp only [List.getD_cons_zero, List.getD_cons_succ, ne_eq, not_true_eq_false, if_false, h2]
  cases scanNoAuth methods <;> simp

/-- C1: on a greeting with version byte 5, method count N and N method bytes that
contain 0x00 at any position, `handleHandshake` performs exactly one write, of the
two bytes `[0x05, 0x00]` (so `[0x05, 0xFF]` is not written), consumes exactly the
greeting, and returns no error when that write succeeds. -/
theorem handshake_selects_noAuth (conn : Conn) (n : Byte) (methods rest : List Byte)
    (hin : conn.input = socks5Version :: n :: (methods ++ rest))
    (hlen : methods.length = n.val) (hmem : (0x00 : Byte) ∈ methods) :
    (handleHandshake conn).2.log = conn.log ++ [Event.write [0x05, 0x00]]
    ∧ Event.write [0x05, 0xFF] ∉ (handleHandshake conn).2.log.drop conn.log.length
    ∧ (handleHandshake conn).2.input = rest
    ∧ (conn.nextWriteErr = none → (handleHandshake conn).1 = none) := by
  have hs : scanNoAuth methods = true := (scanNoAuth_iff methods).mpr hmem
  rw [handleHandshake_greeting conn n methods rest hin hlen, hs, if_pos rfl]
  refine ⟨rfl, ?_, rfl, fun h => h⟩
  simp [write_log, socks5Version, noAuth]

theorem handshake_selects_noAuth_witness :
    (handleHandshake ⟨[5, 3, 2, 0, 1, 9], Error.eof, [], []⟩).2.log
        = [] ++ [Event.write [0x05, 0x00]]
    ∧ Event.write [0x05, 0xFF]
        ∉ (handleHandshake ⟨[5, 3, 2, 0, 1, 9], Error.eof, [], []⟩).2.log.drop 0
    ∧ (handleHandshake ⟨[5, 3, 2, 0, 1, 9], Error.eof, [], []⟩).2.input = [9]
    ∧ ((⟨[5, 3, 2, 0, 1, 9], Error.eof, [], []⟩ : Conn).nextWriteErr = none →
        (handleHandshake ⟨[5, 3, 2, 0, 1, 9], Error.eof, [], []⟩).1 = none) :=
  handshake_selects_noAuth ⟨[5, 3, 2, 0, 1, 9], Error.eof, [], []⟩ 3 [2, 0, 1] [9]
    rfl rfl (by decide)

/-- C2: on a greeting with version byte 5 whose N offered method bytes (N from 0 to 255,
the empty list included) do not contain 0x00, `handleHandshake` performs exactly one
write, of the two bytes `[0x05, 0xFF]`, and returns the error
"no acceptable auth method". -/
theorem handshake_rejects_without_noAuth (conn : Conn) (n : Byte) (methods rest : List Byte)
    (hin : conn.input = socks5Version :: n :: (methods ++ rest))
    (hlen : methods.length = n.val) (hnot : (0x00 : Byte) ∉ methods) :
    (handleHandshake conn).2.log = conn.log ++ [Event.write [0x05, 0xFF]]
    ∧ (handleHandshake conn).1 = some (Error.new "no acceptable auth method")
    ∧ (handleHandshake conn).2.input = rest := by
  have hs : scanNoAuth methods = false := by
    cases h : scanNoAuth methods with
    | false => rfl
    | true => exact absurd ((scanNoAuth_iff methods).mp h) hnot
  rw [handleHandshake_greeting conn n methods rest hin hlen, hs, if_neg (by simp)]
  exact ⟨rfl, rfl, rfl⟩

theorem handshake_rejects_without_noAuth_witness :
    (handleHandshake ⟨[5, 0, 7], Error.eof, [], []⟩).2.log = [] ++ [Event.write [0x05, 0xFF]]
    ∧ (handleHandshake ⟨[5, 0, 7], Error.eof, [], []⟩).1
        = some (Error.new "no acceptable auth method")
    ∧ (handleHandshake ⟨[5, 0, 7], Error.eof, [], []⟩).2.input = [7] :=
  handshake_rejects_without_noAuth ⟨[5, 0, 7], Error.eof, [], []⟩ 0 [] [7]
    rfl rfl (by decide)

/-! ## Reply encoding -/

theorem to4_length (ip p : List Byte) (h : to4 ip = some p) : p.length = 4 := by
  unfold to4 at h
  split_ifs at h with h4 h16
  · cases h; exact h4
  · cases h
    simp only [List.length_take, List.length_drop]
    omega

theorem replyFrame_none (s : Byte) :
    replyFrame s none = [0x05, s, 0x00, 0x01, 0, 0, 0, 0, 0, 0] := rfl

theorem replyFrame_some (s : Byte) (t : TCPAddr) :
    ∃ a b c d : Byte,
      replyFrame s (some t)
        = [0x05, s, 0x00, 0x01, a, b, c, d,
            Fin.ofNat (uint16 t.port / 256), Fin.ofNat (uint16 t.port)]
      ∧ [a, b, c, d] = (to4 t.ip).getD [0, 0, 0, 0] := by
  cases h : to4 t.ip with
  | none => exact ⟨0, 0, 0, 0, by simp [replyFrame, h]; rfl, rfl⟩
  | some p =>
    have hp := to4_length t.ip p h
    match p, hp with
    | [a, b, c, d], _ => exact ⟨a, b, c, d, by simp [replyFrame, h]; rfl, rfl⟩

theorem sendReply_log (conn : Conn) (s : Byte) (addr : Option TCPAddr) :
    (sendReply conn s addr).log = conn.log ++ [Event.write (replyFrame s addr)] := rfl

theorem sendReply_input (conn : Conn) (s : Byte) (addr : Option TCPAddr) :
    (sendReply conn s addr).input = conn.input := rfl

theorem uint16_lt (n : Int) : uint16 n < 65536 := by
  unfold uint16
  omega

/-- C10: for every status byte `s` and every bound address argument, `sendReply`
performs one write of exactly 10 bytes: 0x05, `s`, 0x00, 0x01, four address bytes
and two port bytes.  With no address (nil) the six bytes are zero.  With an address
the port bytes are the big-endian bytes of the port (as a `uint16`), and the four
address bytes are the IPv4 address when the bound address is IPv4 (`To4` is not nil;
a 4-byte address is itself) and zero when it is not. -/
theorem sendReply_writes_fixed_frame (conn : Conn) (s : Byte) (addr : Option TCPAddr) :
    ∃ a b c d hi lo : Byte,
      (sendReply conn s addr).log
        = conn.log ++ [Event.write [0x05, s, 0x00, 0x01, a, b, c, d, hi, lo]]
      ∧ (match addr with
          | none => [a, b, c, d, hi, lo] = [0, 0, 0, 0, 0, 0]
          | some t =>
            ((hi.val * 256 + lo.val : Nat) : Int) = t.port % 65536
            ∧ (match to4 t.ip with
                | some ip => [a, b, c, d] = ip
                | none => [a, b, c, d] = [0, 0, 0, 0])
            ∧ (if t.ip.length = 4 then [a, b, c, d] = t.ip else True)) := by
  cases addr with
  | none => exact ⟨0, 0, 0, 0, 0, 0, by rw [sendReply_log, replyFrame_none], rfl⟩
  | some t =>
    obtain ⟨a, b, c, d, hframe, haddr⟩ := replyFrame_some s t
    refine ⟨a, b, c, d, Fin.ofNat (uint16 t.port / 256), Fin.ofNat (uint16 t.port),
      by rw [sendReply_log, hframe], ?_, ?_, ?_⟩
    · have hlt := uint16_lt t.port
      have hv : ((uint16 t.port : Nat) : Int) = t.port % 65536 := by
        unfold uint16
        omega
      rw [← hv]
      simp only [Fin.ofNat, Fin.val_mk]
      omega
    · cases h : to4 t.ip with
      | none => simpa [h] using haddr
      | some p => simpa [h] using haddr
    · split_ifs with h4
      · have : to4 t.ip = some t.ip := by simp [to4, h4]
        simpa [this] using haddr

/-! ## Request: one lemma per path of `handleRequest` -/

theorem readFull_of_le (conn : Conn) (n : Nat) (hle : n ≤ conn.input.length) :
    readFull conn n = (.ok (conn.input.take n), { conn with input := conn.input.drop n }) :=
  readFull_exact conn (conn.input.take n) (conn.input.drop n) n
    (List.take_append_drop n conn.input).symm (by simp [hle])

theorem readFull_header (conn : Conn) (v cmd rsv atyp : Byte) (rest : List Byte)
    (hin : conn.input = v :: cmd :: rsv :: atyp :: rest) :
    readFull conn 4 = (.ok [v, cmd, rsv, atyp], { conn with input := rest }) :=
  readFull_exact conn [v, cmd, rsv, atyp] rest 4 (by simpa using hin) rfl

/-- The header does not arrive in full: the read error is returned, nothing else happens. -/
theorem handleRequest_no_header (dial : Dialer) (conn : Conn) (hlt : conn.input.length < 4) :
    ∃ e, handleRequest dial conn = (.error e, { conn with input := [] }) := by
  unfold handleRequest
  rw [readFull_short conn 4 hlt]
  exact ⟨_, rfl⟩

/-- Version byte other than 5: an error is returned, nothing is written. -/
theorem handleRequest_bad_version (dial : Dialer) (conn : Conn) (v cmd rsv atyp : Byte)
    (rest : List Byte) (hin : conn.input = v :: cmd :: rsv :: atyp :: rest)
    (hv : v ≠ socks5Version) :
    handleRequest dial conn
      = (.error (Error.new "unsupported SOCKS version"), { conn with input := rest }) := by
  unfold handleRequest
  rw [readFull_header conn v cmd rsv atyp rest hin]
  simp [hv]

/-- Command other than CONNECT. -/
theorem handleRequest_bad_command (dial : Dialer) (conn : Conn) (cmd rsv atyp : Byte)
    (rest : List Byte) (hin : conn.input = socks5Version :: cmd :: rsv :: atyp :: rest)
    (hc : cmd ≠ connectCmd) :
    handleRequest dial conn
      = (.error (Error.new "unsupported command"),
          sendReply { conn with input := rest } 0x07 none) := by
  unfold handleRequest
  rw [readFull_header conn _ cmd rsv atyp rest hin]
  simp [hc]

/-- CONNECT with an address type outside the `switch`. -/
theorem handleRequest_bad_addrType (dial : Dialer) (conn : Conn) (rsv atyp : Byte)
    (rest : List Byte) (hin : conn.input = socks5Version :: connectCmd :: rsv :: atyp :: rest)
    (ha : ¬ supportedAddrType atyp) :
    handleRequest dial conn
      = (.error (Error.new "unsupported address type"),
          sendReply { conn with input := rest } 0x08 none) := by
  unfold supportedAddrType at ha
  have h1 : atyp ≠ ipv4Addr := fun h => ha (Or.inl h)
  have h3 : atyp ≠ domainAddr := fun h => ha (Or.inr (Or.inl h))
  have h4 : atyp ≠ ipv6Addr := fun h => ha (Or.inr (Or.inr h))
  unfold handleRequest
  rw [readFull_header conn _ _ rsv atyp rest hin]
  simp [h1, h3, h4]

theorem readFull_mk (i xs rest : List Byte) (re : Error) (we : List (Option Error))
    (lg : List Event) (n : Nat) (hin : i = xs ++ rest) (hlen : xs.length = n) :
    readFull ⟨i, re, we, lg⟩ n = (.ok xs, ⟨rest, re, we, lg⟩) :=
  readFull_exact ⟨i, re, we, lg⟩ xs rest n hin hlen

/-- CONNECT with a supported address type whose address and port bytes arrive in full:
the dialer is called once with the decoded target and its result decides the reply. -/
theorem handleRequest_dials (dial : Dialer) (conn : Conn) (rsv atyp ph pl : Byte)
    (addr rest : List Byte)
    (hin : conn.input
      = socks5Version :: connectCmd :: rsv :: atyp :: (addr ++ ph :: pl :: rest))
    (ha : supportedAddrType atyp) (hlen : addr.length = addrLen atyp addr) :
    handleRequest dial conn =
      match dial (sprintfHostPort (hostOf atyp addr) (ph.val * 256 + pl.val)) with
      | .error err =>
        (.error err,
          sendReply ⟨rest, conn.readErr, conn.writeErrs, conn.log ++
            [Event.dial (sprintfHostPort (hostOf atyp addr) (ph.val * 256 + pl.val))]⟩
            0x05 none)
      | .ok targetConn =>
        (.ok targetConn,
          sendReply ⟨rest, conn.readErr, conn.writeErrs, conn.log ++
            [Event.dial (sprintfHostPort (hostOf atyp addr) (ph.val * 256 + pl.val))]⟩
            0x00 (some targetConn.localAddr)) := by
  have hport : readFull ⟨ph :: pl :: rest, conn.readErr, conn.writeErrs, conn.log⟩ 2
      = (.ok [ph, pl], ⟨rest, conn.readErr, conn.writeErrs, conn.log⟩) :=
    readFull_mk _ [ph, pl] rest _ _ _ 2 rfl rfl
  unfold handleRequest
  rw [readFull_header conn _ _ rsv atyp _ hin]
  rcases ha with h | h | h
  · subst h
    have h4 : addr.length = 4 := by simpa [addrLen] using hlen
    have haddr := readFull_mk (addr ++ ph :: pl :: rest) addr (ph :: pl :: rest)
      conn.readErr conn.writeErrs conn.log 4 rfl h4
    simp [haddr, hport, hostOf, bigEndianUint16, ipv4Addr, domainAddr]
  · subst h
    match addr, hlen with
    | [], hl => simp [addrLen, domainAddr, ipv4Addr] at hl
    | l :: dom, hl =>
      have hd : dom.length = l.val := by
        simp only [addrLen, domainAddr, ipv4Addr, List.length_cons, List.getD_cons_zero] at hl
        simp at hl
        omega
      have hl1 := readFull_mk (l :: (dom ++ ph :: pl :: rest)) [l] (dom ++ ph :: pl :: rest)
        conn.readErr conn.writeErrs conn.log 1 rfl rfl
      have hl2 := readFull_mk (dom ++ ph :: pl :: rest) dom (ph :: pl :: rest)
        conn.readErr conn.writeErrs conn.log l.val rfl hd
      simp [hl1, hl2, hport, hostOf, bigEndianUint16, ipv4Addr, domainAddr]
  · subst h
    have h16 : addr.length = 16 := by simpa [addrLen, ipv6Addr, ipv4Addr, domainAddr] using hlen
    have haddr := readFull_mk (addr ++ ph :: pl :: rest) addr (ph :: pl :: rest)
      conn.readErr conn.writeErrs conn.log 16 rfl h16
    simp [haddr, hport, hostOf, bigEndianUint16, ipv4Addr, domainAddr, ipv6Addr]

theorem readFull_mk_short (i : List Byte) (re : Error) (we : List (Option Error))
    (lg : List Event) (n : Nat) (hlt : i.length < n) :
    ∃ e, readFull ⟨i, re, we, lg⟩ n = (.error e, ⟨[], re, we, lg⟩)
      ∧ (e = re ∨ e = Error.unexpectedEOF) := by
  rw [readFull_short ⟨i, re, we, lg⟩ n hlt]
  refine ⟨_, rfl, ?_⟩
  split_ifs
  · exact Or.inr rfl
  · exact Or.inl rfl

theorem readFull_mk_of_le (i : List Byte) (re : Error) (we : List (Option Error))
    (lg : List Event) (n : Nat) (hle : n ≤ i.length) :
    readFull ⟨i, re, we, lg⟩ n = (.ok (i.take n), ⟨i.drop n, re, we, lg⟩) :=
  readFull_of_le ⟨i, re, we, lg⟩ n hle

/-- Reading `n` address bytes and then the two port bytes fails when fewer than
`n + 2` bytes are left: the first read that runs short returns its error. -/
theorem read_addr_port_short (i : List Byte) (re : Error) (we : List (Option Error))
    (lg : List Event) (n : Nat) (hlt : i.length < n + 2) :
    (∃ e, readFull ⟨i, re, we, lg⟩ n = (.error e, ⟨[], re, we, lg⟩)
        ∧ (e = re ∨ e = Error.unexpectedEOF))
    ∨ (∃ xs i2 e, readFull ⟨i, re, we, lg⟩ n = (.ok xs, ⟨i2, re, we, lg⟩)
        ∧ readFull ⟨i2, re, we, lg⟩ 2 = (.error e, ⟨[], re, we, lg⟩)
        ∧ (e = re ∨ e = Error.unexpectedEOF)) := by
  by_cases h : i.length < n
  · exact Or.inl (readFull_mk_short i re we lg n h)
  · right
    have hle : n ≤ i.length := by omega
    obtain ⟨e, he, hor⟩ := readFull_mk_short (i.drop n) re we lg 2
      (by simp only [List.length_drop]; omega)
    exact ⟨i.take n, i.drop n, e, readFull_mk_of_le i re we lg n hle, he, hor⟩

/-- CONNECT with a supported address type whose address or port bytes do not arrive
in full: the read error is returned and nothing is written or dialed. -/
theorem handleRequest_short (dial : Dialer) (conn : Conn) (rsv atyp : Byte) (rest : List Byte)
    (hin : conn.input = socks5Version :: connectCmd :: rsv :: atyp :: rest)
    (ha : supportedAddrType atyp) (hshort : rest.length < addrLen atyp rest + 2) :
    ∃ e, handleRequest dial conn
        = (.error e, ⟨[], conn.readErr, conn.writeErrs, conn.log⟩)
      ∧ (e = conn.readErr ∨ e = Error.unexpectedEOF) := by
  unfold handleRequest
  rw [readFull_header conn _ _ rsv atyp _ hin]
  rcases ha with h | h | h
  · subst h
    have hs : rest.length < 4 + 2 := by simpa [addrLen] using hshort
    rcases read_addr_port_short rest conn.readErr conn.writeErrs conn.log 4 hs with
      ⟨e, he, hor⟩ | ⟨xs, i2, e, h1, h2, hor⟩
    · exact ⟨e, by simp [he, ipv4Addr], hor⟩
    · exact ⟨e, by simp [h1, h2, ipv4Addr], hor⟩
  · subst h
    match rest, hshort with
    | [], _ =>
      obtain ⟨e, he, hor⟩ := readFull_mk_short [] conn.readErr conn.writeErrs conn.log 1
        (by simp)
      exact ⟨e, by simp [he, ipv4Addr, domainAddr], hor⟩
    | l :: r, hs =>
      have hl1 := readFull_mk (l :: r) [l] r conn.readErr conn.writeErrs conn.log 1 rfl rfl
      have hs2 : r.length < l.val + 2 := by
        simp only [addrLen, domainAddr, ipv4Addr, List.length_cons, List.getD_cons_zero] at hs
        simp at hs
        omega
      rcases read_addr_port_short r conn.readErr conn.writeErrs conn.log l.val hs2 with
        ⟨e, he, hor⟩ | ⟨xs, i2, e, h1, h2, hor⟩
      · exact ⟨e, by simp [hl1, he, ipv4Addr, domainAddr], hor⟩
      · exact ⟨e, by simp [hl1, h1, h2, ipv4Addr, domainAddr], hor⟩
  · subst h
    have hs : rest.length < 16 + 2 := by
      simpa [addrLen, ipv6Addr, ipv4Addr, domainAddr] using hshort
    rcases read_addr_port_short rest conn.readErr conn.writeErrs conn.log 16 hs with
      ⟨e, he, hor⟩ | ⟨xs, i2, e, h1, h2, hor⟩
    · exact ⟨e, by simp [he, ipv4Addr, domainAddr, ipv6Addr], hor⟩
    · exact ⟨e, by simp [h1, h2, ipv4Addr, domainAddr, ipv6Addr], hor⟩

theorem drop_log (l new : List Event) : (l ++ new).drop l.length = new := by
  simp

theorem not_supported_of_ne (atyp : Byte) (h1 : atyp ≠ 0x01) (h3 : atyp ≠ 0x03)
    (h4 : atyp ≠ 0x04) : ¬ supportedAddrType atyp := by
  intro h
  rcases h with h | h | h
  · exact h1 h
  · exact h3 h
  · exact h4 h

/-! ## Request: the claims -/

/-- C3: on a request with version byte 5 and a command byte other than 0x01,
`handleRequest` performs exactly one write, of the 10-byte Reply with status 0x07
(`05 07 00 01` and six zero bytes), returns the error "unsupported command" with no
connection, and does not call the dialer. -/
theorem unsupported_command_reply (dial : Dialer) (conn : Conn) (cmd rsv atyp : Byte)
    (rest : List Byte) (hin : conn.input = 0x05 :: cmd :: rsv :: atyp :: rest)
    (hc : cmd ≠ 0x01) :
    (handleRequest dial conn).2.log
        = conn.log ++ [Event.write [0x05, 0x07, 0x00, 0x01, 0, 0, 0, 0, 0, 0]]
    ∧ (handleRequest dial conn).1 = .error (Error.new "unsupported command")
    ∧ ∀ t, Event.dial t ∉ (handleRequest dial conn).2.log.drop conn.log.length := by
  rw [handleRequest_bad_command dial conn cmd rsv atyp rest hin hc]
  refine ⟨rfl, rfl, fun t => ?_⟩
  rw [sendReply_log]
  show Event.dial t ∉ (conn.log ++ _).drop conn.log.length
  rw [drop_log]
  simp

theorem unsupported_command_reply_witness :
    (handleRequest (fun _ => .error Error.eof)
        ⟨[5, 2, 0, 1, 127, 0, 0, 1, 0, 80], Error.eof, [], []⟩).2.log
        = [] ++ [Event.write [0x05, 0x07, 0x00, 0x01, 0, 0, 0, 0, 0, 0]]
    ∧ (handleRequest (fun _ => .error Error.eof)
        ⟨[5, 2, 0, 1, 127, 0, 0, 1, 0, 80], Error.eof, [], []⟩).1
        = .error (Error.new "unsupported command")
    ∧ ∀ t, Event.dial t ∉ (handleRequest (fun _ => .error Error.eof)
        ⟨[5, 2, 0, 1, 127, 0, 0, 1, 0, 80], Error.eof, [], []⟩).2.log.drop 0 :=
  unsupported_command_reply (fun _ => .error Error.eof)
    ⟨[5, 2, 0, 1, 127, 0, 0, 1, 0, 80], Error.eof, [], []⟩ 2 0 1 [127, 0, 0, 1, 0, 80]
    rfl (by decide)

/-- C4, as stated, fails: the request `05 02 00 09` has version byte 5 and the
address type 0x09, outside 0x01, 0x03, 0x04, yet the Reply written has status 0x07,
not 0x08, because the command byte is examined before the address type. -/
theorem bad_addrType_any_command_counterexample :
    ¬ supportedAddrType 0x09
    ∧ (handleRequest (fun _ => .error Error.eof) ⟨[5, 2, 0, 9], Error.eof, [], []⟩).2.log
        = [Event.write [0x05, 0x07, 0x00, 0x01, 0, 0, 0, 0, 0, 0]] :=
  ⟨by decide, rfl⟩

/-- C4 (amended): on a request with version byte 5, command byte 0x01 and an
address-type byte outside 0x01, 0x03, 0x04, the reserved byte being arbitrary, the
one Reply that `handleRequest` writes has 10 bytes and status 0x08, and the dialer
is not called. -/
theorem bad_addrType_reply_status (dial : Dialer) (conn : Conn) (rsv atyp : Byte)
    (rest : List Byte) (hin : conn.input = 0x05 :: 0x01 :: rsv :: atyp :: rest)
    (h1 : atyp ≠ 0x01) (h3 : atyp ≠ 0x03) (h4 : atyp ≠ 0x04) :
    (∃ data, (handleRequest dial conn).2.log.drop conn.log.length = [Event.write data]
      ∧ data.length = 10 ∧ data.getD 1 0 = 0x08)
    ∧ ∀ t, Event.dial t ∉ (handleRequest dial conn).2.log.drop conn.log.length := by
  rw [handleRequest_bad_addrType dial conn rsv atyp rest hin (not_supported_of_ne atyp h1 h3 h4)]
  have hlog : (sendReply { conn with input := rest } 0x08 none).log.drop conn.log.length
      = [Event.write (replyFrame 0x08 none)] := by
    rw [sendReply_log]
    exact drop_log conn.log _
  rw [hlog]
  refine ⟨⟨_, rfl, rfl, rfl⟩, fun t => ?_⟩
  simp

theorem bad_addrType_reply_status_witness :
    (∃ data, (handleRequest (fun _ => .error Error.eof)
        ⟨[5, 1, 7, 9, 1, 2], Error.eof, [], []⟩).2.log.drop 0 = [Event.write data]
      ∧ data.length = 10 ∧ data.getD 1 0 = 0x08)
    ∧ ∀ t, Event.dial t ∉ (handleRequest (fun _ => .error Error.eof)
        ⟨[5, 1, 7, 9, 1, 2], Error.eof, [], []⟩).2.log.drop 0 :=
  bad_addrType_reply_status (fun _ => .error Error.eof)
    ⟨[5, 1, 7, 9, 1, 2], Error.eof, [], []⟩ 7 9 [1, 2] rfl
    (by decide) (by decide) (by decide)

/-- C5: on a CONNECT request (version byte 5, command byte 0x01) with an address-type
byte outside 0x01, 0x03, 0x04, `handleRequest` performs exactly one write, of the
bytes `05 08 00 01 00 00 00 00 00 00`, returns the error "unsupported address type"
with no connection, leaves every byte after the 4-byte header unread, and does not
call the dialer. -/
theorem unsupported_addrType_reply (dial : Dialer) (conn : Conn) (rsv atyp : Byte)
    (rest : List Byte) (hin : conn.input = 0x05 :: 0x01 :: rsv :: atyp :: rest)
    (h1 : atyp ≠ 0x01) (h3 : atyp ≠ 0x03) (h4 : atyp ≠ 0x04) :
    (handleRequest dial conn).2.log
        = conn.log ++ [Event.write [0x05, 0x08, 0x00, 0x01, 0, 0, 0, 0, 0, 0]]
    ∧ (handleRequest dial conn).1 = .error (Error.new "unsupported address type")
    ∧ (handleRequest dial conn).2.input = rest
    ∧ ∀ t, Event.dial t ∉ (handleRequest dial conn).2.log.drop conn.log.length := by
  rw [handleRequest_bad_addrType dial conn rsv atyp rest hin (not_supported_of_ne atyp h1 h3 h4)]
  refine ⟨rfl, rfl, rfl, fun t => ?_⟩
  rw [sendReply_log]
  show Event.dial t ∉ (conn.log ++ _).drop conn.log.length
  rw [drop_log]
  simp

theorem unsupported_addrType_reply_witness :
    (handleRequest (fun _ => .error Error.eof)
        ⟨[5, 1, 0, 2, 1, 2, 3], Error.eof, [], []⟩).2.log
        = [] ++ [Event.write [0x05, 0x08, 0x00, 0x01, 0, 0, 0, 0, 0, 0]]
    ∧ (handleRequest (fun _ => .error Error.eof)
        ⟨[5, 1, 0, 2, 1, 2, 3], Error.eof, [], []⟩).1
        = .error (Error.new "unsupported address type")
    ∧ (handleRequest (fun _ => .error Error.eof)
        ⟨[5, 1, 0, 2, 1, 2, 3], Error.eof, [], []⟩).2.input = [1, 2, 3]
    ∧ ∀ t, Event.dial t ∉ (handleRequest (fun _ => .error Error.eof)
        ⟨[5, 1, 0, 2, 1, 2, 3], Error.eof, [], []⟩).2.log.drop 0 :=
  unsupported_addrType_reply (fun _ => .error Error.eof)
    ⟨[5, 1, 0, 2, 1, 2, 3], Error.eof, [], []⟩ 0 2 [1, 2, 3] rfl
    (by decide) (by decide) (by decide)

/-- C9: on a CONNECT request with version 5 and a supported address type whose
address and port bytes arrive in full, if the dial of the decoded target fails then
`handleRequest` calls the dialer exactly once (one dial event, for that target, no
second attempt), then performs exactly one write, of the bytes
`05 05 00 01 00 00 00 00 00 00`, and returns the dial error with no connection. -/
theorem dial_failure_reply (dial : Dialer) (conn : Conn) (rsv atyp ph pl : Byte)
    (addr rest : List Byte) (e : Error)
    (hin : conn.input = 0x05 :: 0x01 :: rsv :: atyp :: (addr ++ ph :: pl :: rest))
    (ha : atyp = 0x01 ∨ atyp = 0x03 ∨ atyp = 0x04)
    (hlen : addr.length = addrLen atyp addr)
    (hdial : dial (sprintfHostPort (hostOf atyp addr) (ph.val * 256 + pl.val)) = .error e) :
    (handleRequest dial conn).2.log
        = conn.log ++
          [Event.dial (sprintfHostPort (hostOf atyp addr) (ph.val * 256 + pl.val)),
            Event.write [0x05, 0x05, 0x00, 0x01, 0, 0, 0, 0, 0, 0]]
    ∧ (handleRequest dial conn).1 = .error e
    ∧ (handleRequest dial conn).2.input = rest := by
  rw [handleRequest_dials dial conn rsv atyp ph pl addr rest hin ha hlen, hdial]
  refine ⟨?_, rfl, rfl⟩
  show (sendReply _ 0x05 none).log = _
  rw [sendReply_log, replyFrame_none]
  simp

theorem dial_failure_reply_witness :
    (handleRequest (fun _ => .error (Error.transport 111))
        ⟨[5, 1, 0, 3, 2, 0x61, 0x62, 0, 80, 9], Error.eof, [], []⟩).2.log
        = [] ++ [Event.dial "ab:80", Event.write [0x05, 0x05, 0x00, 0x01, 0, 0, 0, 0, 0, 0]]
    ∧ (handleRequest (fun _ => .error (Error.transport 111))
        ⟨[5, 1, 0, 3, 2, 0x61, 0x62, 0, 80, 9], Error.eof, [], []⟩).1
        = .error (Error.transport 111)
    ∧ (handleRequest (fun _ => .error (Error.transport 111))
        ⟨[5, 1, 0, 3, 2, 0x61, 0x62, 0, 80, 9], Error.eof, [], []⟩).2.input = [9] :=
  dial_failure_reply (fun _ => .error (Error.transport 111))
    ⟨[5, 1, 0, 3, 2, 0x61, 0x62, 0, 80, 9], Error.eof, [], []⟩ 0 3 0 80 [2, 0x61, 0x62] [9]
    (Error.transport 111) rfl (by decide) (by decide) rfl

/-- Bytes that hold a full address and port split into address, port and remainder. -/
theorem split_addr_port (atyp : Byte) (rest : List Byte)
    (hle : addrLen atyp rest + 2 ≤ rest.length) :
    ∃ addr ph pl rest2, rest = addr ++ ph :: pl :: rest2
      ∧ addr.length = addrLen atyp addr := by
  have hn : (rest.take (addrLen atyp rest)).length = addrLen atyp rest := by
    simp only [List.length_take]
    omega
  have hsame : addrLen atyp (rest.take (addrLen atyp rest)) = addrLen atyp rest := by
    cases rest with
    | nil => simp at hle
    | cons x xs =>
      unfold addrLen
      split_ifs with h1 h3
      · rfl
      · have : List.take (1 + x.val) (x :: xs) = x :: List.take x.val xs := by
          rw [Nat.add_comm]; rfl
        simp [this]
      · rfl
  have hd : 2 ≤ (rest.drop (addrLen atyp rest)).length := by
    simp only [List.length_drop]
    omega
  match hr : rest.drop (addrLen atyp rest), hd with
  | ph :: pl :: rest2, _ =>
    refine ⟨rest.take (addrLen atyp rest), ph, pl, rest2, ?_, ?_⟩
    · rw [← hr, List.take_append_drop]
    · rw [hsame, hn]

/-- Every execution of `handleRequest` ends in one of five ways. -/
theorem handleRequest_outcomes (dial : Dialer) (conn : Conn) :
    (∃ e, (handleRequest dial conn).1 = .error e
      ∧ ((handleRequest dial conn).2.log = conn.log
        ∨ (handleRequest dial conn).2.log
            = conn.log ++ [Event.write (replyFrame 0x07 none)]
        ∨ (handleRequest dial conn).2.log
            = conn.log ++ [Event.write (replyFrame 0x08 none)]))
    ∨ (∃ t e, dial t = .error e ∧ (handleRequest dial conn).1 = .error e
        ∧ (handleRequest dial conn).2.log
            = conn.log ++ [Event.dial t, Event.write (replyFrame 0x05 none)])
    ∨ (∃ t tc, dial t = .ok tc ∧ (handleRequest dial conn).1 = .ok tc
        ∧ (handleRequest dial conn).2.log
            = conn.log ++ [Event.dial t, Event.write (replyFrame 0x00 (some tc.localAddr))]) := by
  by_cases h4 : conn.input.length < 4
  · obtain ⟨e, he⟩ := handleRequest_no_header dial conn h4
    rw [he]
    exact Or.inl ⟨e, rfl, Or.inl rfl⟩
  · match hi : conn.input, h4 with
    | v :: cmd :: rsv :: atyp :: rest, _ =>
      by_cases hv : v = socks5Version
      · subst hv
        by_cases hc : cmd = connectCmd
        · subst hc
          by_cases ha : supportedAddrType atyp
          · by_cases hs : rest.length < addrLen atyp rest + 2
            · obtain ⟨e, he, _⟩ := handleRequest_short dial conn rsv atyp rest hi ha hs
              rw [he]
              exact Or.inl ⟨e, rfl, Or.inl rfl⟩
            · obtain ⟨addr, ph, pl, rest2, hr, hl⟩ :=
                split_addr_port atyp rest (by omega)
              subst hr
              rw [handleRequest_dials dial conn rsv atyp ph pl addr rest2 hi ha hl]
              cases hd : dial (sprintfHostPort (hostOf atyp addr) (ph.val * 256 + pl.val)) with
              | error e =>
                refine Or.inr (Or.inl ⟨_, e, hd, rfl, ?_⟩)
                show (sendReply _ 0x05 none).log = _
                rw [sendReply_log]
                simp
              | ok tc =>
                refine Or.inr (Or.inr ⟨_, tc, hd, rfl, ?_⟩)
                show (sendReply _ 0x00 (some tc.localAddr)).log = _
                rw [sendReply_log]
                simp
          · rw [handleRequest_bad_addrType dial conn rsv atyp rest hi ha]
            exact Or.inl ⟨_, rfl, Or.inr (Or.inr rfl)⟩
        · rw [handleRequest_bad_command dial conn cmd rsv atyp rest hi hc]
          exact Or.inl ⟨_, rfl, Or.inr (Or.inl rfl)⟩
      · rw [handleRequest_bad_version dial conn v cmd rsv atyp rest hi hv]
        exact Or.inl ⟨_, rfl, Or.inl rfl⟩
    | [], h | [_], h | [_, _], h | [_, _, _], h => simp at h

/-- C6, as stated, fails: the input `05 01 00 01 7f 00` followed by end of stream
carries a full header with version 5 and two of the four IPv4 address bytes;
`handleRequest` returns `io.ErrUnexpectedEOF` and has attempted no write at all. -/
theorem reply_on_every_error_path_counterexample :
    handleRequest (fun _ => .error (Error.transport 111))
        ⟨[5, 1, 0, 1, 0x7f, 0], Error.eof, [], []⟩
      = (.error Error.unexpectedEOF, ⟨[], Error.eof, [], []⟩) :=
  rfl

/-- C6 (amended): when `handleRequest` has read the full 4-byte header with version
byte 5 and returns an error, it has attempted to write a Reply before returning on
the unsupported-command path (status 0x07), the unsupported-address-type path
(status 0x08) and the dial-failure path (status 0x05, after the one dial); on the
remaining path, a failure to read the address or port bytes that follow the header,
it returns the read error and writes nothing. -/
theorem error_paths_reply (dial : Dialer) (conn : Conn) (cmd rsv atyp : Byte)
    (rest : List Byte) (e : Error)
    (hin : conn.input = 0x05 :: cmd :: rsv :: atyp :: rest)
    (herr : (handleRequest dial conn).1 = .error e) :
    (cmd ≠ 0x01 →
      (handleRequest dial conn).2.log
        = conn.log ++ [Event.write [0x05, 0x07, 0x00, 0x01, 0, 0, 0, 0, 0, 0]])
    ∧ (cmd = 0x01 → ¬ supportedAddrType atyp →
      (handleRequest dial conn).2.log
        = conn.log ++ [Event.write [0x05, 0x08, 0x00, 0x01, 0, 0, 0, 0, 0, 0]])
    ∧ (cmd = 0x01 → supportedAddrType atyp → addrLen atyp rest + 2 ≤ rest.length →
      ∃ t, dial t = .error e
        ∧ (handleRequest dial conn).2.log
          = conn.log ++ [Event.dial t, Event.write [0x05, 0x05, 0x00, 0x01, 0, 0, 0, 0, 0, 0]])
    ∧ (cmd = 0x01 → supportedAddrType atyp → rest.length < addrLen atyp rest + 2 →
      (handleRequest dial conn).2.log = conn.log
        ∧ (e = conn.readErr ∨ e = Error.unexpectedEOF)) := by
  refine ⟨fun hc => ?_, fun hc ha => ?_, fun hc ha hle => ?_, fun hc ha hs => ?_⟩
  · rw [handleRequest_bad_command dial conn cmd rsv atyp rest hin hc]
    rfl
  · subst hc
    rw [handleRequest_bad_addrType dial conn rsv atyp rest hin ha]
    rfl
  · subst hc
    obtain ⟨addr, ph, pl, rest2, hr, hl⟩ := split_addr_port atyp rest hle
    subst hr
    have hd := handleRequest_dials dial conn rsv atyp ph pl addr rest2 hin ha hl
    rw [hd] at herr ⊢
    cases hdial : dial (sprintfHostPort (hostOf atyp addr) (ph.val * 256 + pl.val)) with
    | error e2 =>
      rw [hdial] at herr
      have he : e2 = e := by simpa using herr
      subst he
      refine ⟨_, hdial, ?_⟩
      show (sendReply _ 0x05 none).log = _
      rw [sendReply_log, replyFrame_none]
      simp
    | ok tc =>
      rw [hdial] at herr
      simp at herr
  · subst hc
    obtain ⟨e2, he, hor⟩ := handleRequest_short dial conn rsv atyp rest hin ha hs
    rw [he] at herr ⊢
    have : e2 = e := by simpa using herr
    subst this
    exact ⟨rfl, hor⟩

theorem error_paths_reply_witness :
    ∃ t, (fun _ => .error (Error.transport 111) : Dialer) t = .error (Error.transport 111)
      ∧ (handleRequest (fun _ => .error (Error.transport 111))
          ⟨[5, 1, 0, 1, 10, 0, 0, 7, 1, 187], Error.eof, [], []⟩).2.log
        = [] ++ [Event.dial t, Event.write [0x05, 0x05, 0x00, 0x01, 0, 0, 0, 0, 0, 0]] :=
  (error_paths_reply (fun _ => .error (Error.transport 111))
    ⟨[5, 1, 0, 1, 10, 0, 0, 7, 1, 187], Error.eof, [], []⟩ 1 0 1 [10, 0, 0, 7, 1, 187]
    (Error.transport 111) rfl rfl).2.2.1 rfl (by decide) (by decide)

theorem replyFrame_status (s : Byte) (addr : Option TCPAddr) :
    (replyFrame s addr).length = 10 ∧ (replyFrame s addr).getD 1 0 = s := by
  cases addr with
  | none => exact ⟨rfl, rfl⟩
  | some t =>
    obtain ⟨a, b, c, d, h, _⟩ := replyFrame_some s t
    rw [h]
    exact ⟨rfl, rfl⟩

/-- C8: in every execution of `handleRequest`, a Reply with status 0x00 (a 10-byte
write whose second byte is 0x00) is among the writes if and only if the dialer was
called and returned an established connection.  In that case the effects are the
dial followed by one write of `05 00 00 01`, the connection local IPv4 address
(`To4` of its local address, zero when it is not IPv4) and the two big-endian bytes
of its local port, and `handleRequest` returns that same connection with no error. -/
theorem success_reply_iff_dial_ok (dial : Dialer) (conn : Conn) :
    ((∃ data, Event.write data ∈ (handleRequest dial conn).2.log.drop conn.log.length
        ∧ data.length = 10 ∧ data.getD 1 0 = 0x00)
      ↔ (∃ t tc, Event.dial t ∈ (handleRequest dial conn).2.log.drop conn.log.length
          ∧ dial t = .ok tc))
    ∧ (∀ t tc, Event.dial t ∈ (handleRequest dial conn).2.log.drop conn.log.length →
        dial t = .ok tc →
        (handleRequest dial conn).1 = .ok tc
        ∧ ∃ a b c d hi lo : Byte,
            (handleRequest dial conn).2.log
              = conn.log ++
                [Event.dial t, Event.write [0x05, 0x00, 0x00, 0x01, a, b, c, d, hi, lo]]
            ∧ [a, b, c, d] = (to4 tc.localAddr.ip).getD [0, 0, 0, 0]
            ∧ ((hi.val * 256 + lo.val : Nat) : Int) = tc.localAddr.port % 65536) := by
  rcases handleRequest_outcomes dial conn with
    ⟨e, _, hl | hl | hl⟩ | ⟨t0, e, hd, _, hl⟩ | ⟨t0, tc0, hd, hres, hl⟩
  · rw [hl]
    simp
  · rw [hl, drop_log]
    have h7 := replyFrame_status 0x07 none
    refine ⟨⟨fun ⟨data, hm, _, h0⟩ => ?_, fun ⟨t, tc, hm, _⟩ => ?_⟩, fun t tc hm => ?_⟩
    · simp at hm
      rw [hm, h7.2] at h0
      exact absurd h0 (by decide)
    · simp at hm
    · simp at hm
  · rw [hl, drop_log]
    have h8 := replyFrame_status 0x08 none
    refine ⟨⟨fun ⟨data, hm, _, h0⟩ => ?_, fun ⟨t, tc, hm, _⟩ => ?_⟩, fun t tc hm => ?_⟩
    · simp at hm
      rw [hm, h8.2] at h0
      exact absurd h0 (by decide)
    · simp at hm
    · simp at hm
  · rw [hl, drop_log]
    have h5 := replyFrame_status 0x05 none
    refine ⟨⟨fun ⟨data, hm, _, h0⟩ => ?_, fun ⟨t, tc, hm, hok⟩ => ?_⟩, fun t tc hm hok => ?_⟩
    · simp at hm
      rw [hm, h5.2] at h0
      exact absurd h0 (by decide)
    · simp at hm
      rw [hm, hd] at hok
      simp at hok
    · simp at hm
      rw [hm, hd] at hok
      simp at hok
  · rw [hl, drop_log]
    have h0 := replyFrame_status 0x00 (some tc0.localAddr)
    refine ⟨⟨fun _ => ⟨t0, tc0, by simp, hd⟩,
      fun _ => ⟨replyFrame 0x00 (some tc0.localAddr), by simp, h0.1, h0.2⟩⟩,
      fun t tc hm hok => ?_⟩
    simp at hm
    subst hm
    rw [hd] at hok
    have htc : tc0 = tc := by simpa using hok
    subst htc
    refine ⟨hres, ?_⟩
    obtain ⟨a, b, c, d, hframe, haddr⟩ := replyFrame_some 0x00 tc0.localAddr
    refine ⟨a, b, c, d, Fin.ofNat (uint16 tc0.localAddr.port / 256),
      Fin.ofNat (uint16 tc0.localAddr.port), by rw [hframe], haddr, ?_⟩
    have hlt := uint16_lt tc0.localAddr.port
    have hv : ((uint16 tc0.localAddr.port : Nat) : Int) = tc0.localAddr.port % 65536 := by
      unfold uint16
      omega
    rw [← hv]
    simp only [Fin.ofNat, Fin.val_mk]
    omega

theorem success_reply_iff_dial_ok_witness :
    (handleRequest (fun _ => .ok ⟨1, ⟨[192, 168, 0, 9], 40000⟩⟩)
        ⟨[5, 1, 0, 1, 127, 0, 0, 1, 0, 80], Error.eof, [], []⟩).1
      = .ok ⟨1, ⟨[192, 168, 0, 9], 40000⟩⟩
    ∧ ∃ a b c d hi lo : Byte,
        (handleRequest (fun _ => .ok ⟨1, ⟨[192, 168, 0, 9], 40000⟩⟩)
            ⟨[5, 1, 0, 1, 127, 0, 0, 1, 0, 80], Error.eof, [], []⟩).2.log
          = [] ++ [Event.dial "127.0.0.1:80",
              Event.write [0x05, 0x00, 0x00, 0x01, a, b, c, d, hi, lo]]
        ∧ [a, b, c, d] = (to4 [192, 168, 0, 9]).getD [0, 0, 0, 0]
        ∧ ((hi.val * 256 + lo.val : Nat) : Int) = (40000 : Int) % 65536 :=
  (success_reply_iff_dial_ok (fun _ => .ok ⟨1, ⟨[192, 168, 0, 9], 40000⟩⟩)
    ⟨[5, 1, 0, 1, 127, 0, 0, 1, 0, 80], Error.eof, [], []⟩).2 "127.0.0.1:80"
    ⟨1, ⟨[192, 168, 0, 9], 40000⟩⟩ (List.Mem.head _) rfl

/-! ## Relay -/

theorem relayStep_inv (s s2 : RelayState) (a : RelayStep) (hinv : relayInv s)
    (hstep : relayStep s a = some s2) : relayInv s2 := by
  obtain ⟨tt, tc, d, pc⟩ := s
  unfold relayInv at hinv ⊢
  cases a <;> cases pc <;> cases tt <;> cases tc <;>
    simp [relayStep, signalledCount, doneCap] at hinv hstep ⊢ <;>
    (try (obtain ⟨h1, h2⟩ := hstep; subst h2; simp; omega)) <;>
    (try (subst hstep; simp; omega))

theorem relayRun_inv (sched : List RelayStep) (s s2 : RelayState) (hinv : relayInv s)
    (hrun : relayRun s sched = some s2) : relayInv s2 := by
  induction sched generalizing s with
  | nil =>
    simp only [relayRun, Option.some.injEq] at hrun
    subst hrun
    exact hinv
  | cons a rest ih =>
    unfold relayRun at hrun
    cases hstep : relayStep s a with
    | none => simp [hstep] at hrun
    | some s1 =>
      rw [hstep] at hrun
      exact ih s1 (relayStep_inv s s1 a hinv hstep) hrun

theorem relayInit_inv : relayInv relayInit := by
  unfold relayInv relayInit signalledCount
  simp

/-- C7, as stated, fails: in the schedule where both goroutines are started, the copy
from client to target ends and signals, and `relay` then receives, `relay` has
returned while the copy from target to client is still inside `io.Copy`. -/
theorem relay_waits_for_both_counterexample :
    relayRun relayInit
        [RelayStep.main, RelayStep.main, RelayStep.endToTarget, RelayStep.sendToTarget,
          RelayStep.main]
      = some ⟨CopyTask.signalled, CopyTask.copying, 0, RelayPc.returned⟩ :=
  rfl

/-- C7 (amended): `relay` returns only after at least one of its two copy tasks has
signalled completion on `done`: in every state reached from its entry in which
`relay` has returned, one of the two goroutines has performed its send. -/
theorem relay_returns_after_one_signal (sched : List RelayStep) (s : RelayState)
    (hrun : relayRun relayInit sched = some s) (hret : s.pc = RelayPc.returned) :
    s.toTarget = CopyTask.signalled ∨ s.toClient = CopyTask.signalled := by
  have h := (relayRun_inv sched relayInit s relayInit_inv hrun).1
  rw [hret] at h
  unfold signalledCount at h
  by_cases h1 : s.toTarget = CopyTask.signalled
  · exact Or.inl h1
  · by_cases h2 : s.toClient = CopyTask.signalled
    · exact Or.inr h2
    · simp [h1, h2] at h

theorem relay_returns_after_one_signal_witness :
    (⟨CopyTask.copied, CopyTask.signalled, 0, RelayPc.returned⟩ : RelayState).toTarget
        = CopyTask.signalled
      ∨ (⟨CopyTask.copied, CopyTask.signalled, 0, RelayPc.returned⟩ : RelayState).toClient
        = CopyTask.signalled :=
  relay_returns_after_one_signal
    [RelayStep.main, RelayStep.main, RelayStep.endToClient, RelayStep.endToTarget,
      RelayStep.sendToClient, RelayStep.main]
    ⟨CopyTask.copied, CopyTask.signalled, 0, RelayPc.returned⟩ rfl rfl

/-! ## Reply round trip and request decoding -/

theorem ipString_four (a b c d : Byte) :
    ipString [a, b, c, d]
      = toString a.val ++ "." ++ toString b.val ++ "." ++ toString c.val ++ "."
        ++ toString d.val := by
  simp [ipString, to4, string4]

theorem bigEndian_put (v : Nat) (hv : v < 65536) :
    bigEndianUint16 [Fin.ofNat (v / 256), Fin.ofNat v] = v := by
  simp only [bigEndianUint16, List.getD_cons_zero, List.getD_cons_succ, Fin.ofNat, Fin.val_mk]
  omega

/-- C11: round trip.  For every IPv4 address a.b.c.d (given as four bytes, or as any
address whose `To4` is those four bytes) and every port p with 0 <= p <= 65535, the
frame that `sendReply` writes for that address and port carries in bytes 4..7 the
bytes a b c d, which the request-side address decode renders as the dotted decimal
text of a.b.c.d, and in bytes 8..9 two bytes which the request-side port decode
(big-endian) turns back into p. -/
theorem reply_roundtrip (conn : Conn) (s : Byte) (ip : List Byte) (a b c d : Byte) (p : Int)
    (hip : to4 ip = some [a, b, c, d]) (hp0 : 0 ≤ p) (hp1 : p ≤ 65535) :
    ∃ frame, (sendReply conn s (some ⟨ip, p⟩)).log = conn.log ++ [Event.write frame]
      ∧ (frame.drop 4).take 4 = [a, b, c, d]
      ∧ ipString ((frame.drop 4).take 4)
          = toString a.val ++ "." ++ toString b.val ++ "." ++ toString c.val ++ "."
            ++ toString d.val
      ∧ ((bigEndianUint16 ((frame.drop 8).take 2) : Nat) : Int) = p := by
  obtain ⟨a2, b2, c2, d2, hframe, haddr⟩ := replyFrame_some s ⟨ip, p⟩
  simp only [hip, Option.getD_some] at haddr
  refine ⟨_, sendReply_log conn s _, ?_, ?_, ?_⟩
  · rw [hframe]
    exact haddr
  · rw [hframe]
    show ipString [a2, b2, c2, d2] = _
    rw [haddr]
    exact ipString_four a b c d
  · rw [hframe]
    show ((bigEndianUint16 [Fin.ofNat (uint16 p / 256), Fin.ofNat (uint16 p)] : Nat) : Int) = p
    rw [bigEndian_put _ (uint16_lt p)]
    unfold uint16
    omega

theorem reply_roundtrip_witness :
    ∃ frame, (sendReply ⟨[], Error.eof, [], []⟩ 0x00 (some ⟨[192, 168, 1, 20], 51234⟩)).log
        = [] ++ [Event.write frame]
      ∧ (frame.drop 4).take 4 = [192, 168, 1, 20]
      ∧ ipString ((frame.drop 4).take 4)
          = toString ((192 : Byte)).val ++ "." ++ toString ((168 : Byte)).val ++ "."
            ++ toString ((1 : Byte)).val ++ "." ++ toString ((20 : Byte)).val
      ∧ ((bigEndianUint16 ((frame.drop 8).take 2) : Nat) : Int) = 51234 :=
  reply_roundtrip ⟨[], Error.eof, [], []⟩ 0x00 [192, 168, 1, 20] 192 168 1 20 51234
    rfl (by decide) (by decide)

theorem goString_bytes (bs : List Byte) :
    (goString bs).data.map Char.toNat = bs.map Fin.val := by
  unfold goString
  simp only [List.map_map]
  apply List.map_congr_left
  intro b _
  have hb : b.val < 256 := b.isLt
  simp only [Function.comp_apply]
  unfold Char.ofNat
  have hvalid : Nat.isValidChar b.val := Or.inl (by omega)
  simp only [hvalid, dite_true]
  rfl

/-- C12: on a CONNECT request with address type 0x03, length byte L, L domain bytes
and two port bytes, the host `handleRequest` decodes is those L bytes as text, byte
for byte, and the one target passed to the dialer is that text followed by a colon
and the decimal value of the big-endian port.  For length 11, the bytes of
"example.com" and the port bytes 00 50 the target is "example.com:80". -/
theorem domain_target (dial : Dialer) (conn : Conn) (rsv l ph pl : Byte)
    (dom rest : List Byte)
    (hin : conn.input = 0x05 :: 0x01 :: rsv :: 0x03 :: l :: (dom ++ ph :: pl :: rest))
    (hlen : dom.length = l.val) :
    (∃ frame, (handleRequest dial conn).2.log
        = conn.log ++
          [Event.dial (goString dom ++ ":" ++ toString (ph.val * 256 + pl.val)),
            Event.write frame])
    ∧ (goString dom).data.map Char.toNat = dom.map Fin.val
    ∧ goString [0x65, 0x78, 0x61, 0x6d, 0x70, 0x6c, 0x65, 0x2e, 0x63, 0x6f, 0x6d] ++ ":"
        ++ toString ((0x00 : Byte).val * 256 + (0x50 : Byte).val) = "example.com:80" := by
  refine ⟨?_, goString_bytes dom, by decide⟩
  have hl : (l :: dom).length = addrLen domainAddr (l :: dom) := by
    simp [addrLen, domainAddr, ipv4Addr, hlen]
    omega
  have hd := handleRequest_dials dial conn rsv domainAddr ph pl (l :: dom) rest hin
    (Or.inr (Or.inl rfl)) hl
  have hhost : sprintfHostPort (hostOf domainAddr (l :: dom)) (ph.val * 256 + pl.val)
      = goString dom ++ ":" ++ toString (ph.val * 256 + pl.val) := by
    simp [sprintfHostPort, hostOf]
  rw [hhost] at hd
  rw [hd]
  cases dial (goString dom ++ ":" ++ toString (ph.val * 256 + pl.val)) with
  | error e =>
    exact ⟨replyFrame 0x05 none, by
      show (sendReply _ 0x05 none).log = _
      rw [sendReply_log]
      simp⟩
  | ok tc =>
    exact ⟨replyFrame 0x00 (some tc.localAddr), by
      show (sendReply _ 0x00 (some tc.localAddr)).log = _
      rw [sendReply_log]
      simp⟩

theorem domain_target_witness :
    (∃ frame, (handleRequest (fun _ => .error (Error.transport 111))
        ⟨[5, 1, 0, 3, 11, 0x65, 0x78, 0x61, 0x6d, 0x70, 0x6c, 0x65, 0x2e, 0x63, 0x6f, 0x6d,
            0x00, 0x50], Error.eof, [], []⟩).2.log
        = [] ++ [Event.dial "example.com:80", Event.write frame])
    ∧ (goString [0x65, 0x78, 0x61, 0x6d, 0x70, 0x6c, 0x65, 0x2e, 0x63, 0x6f, 0x6d]).data.map
          Char.toNat
        = [0x65, 0x78, 0x61, 0x6d, 0x70, 0x6c, 0x65, 0x2e, 0x63, 0x6f, (0x6d : Byte)].map Fin.val
    ∧ goString [0x65, 0x78, 0x61, 0x6d, 0x70, 0x6c, 0x65, 0x2e, 0x63, 0x6f, 0x6d] ++ ":"
        ++ toString ((0x00 : Byte).val * 256 + (0x50 : Byte).val) = "example.com:80" :=
  domain_target (fun _ => .error (Error.transport 111))
    ⟨[5, 1, 0, 3, 11, 0x65, 0x78, 0x61, 0x6d, 0x70, 0x6c, 0x65, 0x2e, 0x63, 0x6f, 0x6d,
        0x00, 0x50], Error.eof, [], []⟩ 0 11 0x00 0x50
    [0x65, 0x78, 0x61, 0x6d, 0x70, 0x6c, 0x65, 0x2e, 0x63, 0x6f, 0x6d] [] rfl rfl

/-! ## Version mismatch and write failure -/

/-- A first byte other than 5 ends the handshake with an error and no effect. -/
theorem handshake_bad_version_aux (conn : Conn) (v : Byte) (rest : List Byte)
    (hin : conn.input = v :: rest) (hv : v ≠ 0x05) :
    (∃ e, (handleHandshake conn).1 = some e)
    ∧ (rest ≠ [] → (handleHandshake conn).1 = some (Error.new "unsupported SOCKS version"))
    ∧ (handleHandshake conn).2.log = conn.log
    ∧ (handleHandshake conn).2.input = conn.input.drop 2 := by
  cases rest with
  | nil =>
    have hs := readFull_short conn 2 (by simp [hin])
    unfold handleHandshake
    rw [hs]
    exact ⟨⟨_, rfl⟩, fun h => absurd rfl h, rfl, by simp [hin]⟩
  | cons n rest2 =>
    have h1 : readFull conn 2 = (.ok [v, n], { conn with input := rest2 }) :=
      readFull_exact conn [v, n] rest2 2 (by simpa using hin) rfl
    have hv2 : v ≠ socks5Version := hv
    have hh : handleHandshake conn
        = (some (Error.new "unsupported SOCKS version"), { conn with input := rest2 }) := by
      unfold handleHandshake
      rw [h1]
      simp [hv2]
    rw [hh]
    exact ⟨⟨_, rfl⟩, fun _ => rfl, rfl, by simp [hin]⟩

/-- C14: on a greeting whose first byte is not 5, `handleHandshake` returns an error
(the error "unsupported SOCKS version" when the second byte arrives too), performs no
write at all, and reads no more than the first two bytes of the stream. -/
theorem handshake_bad_version (conn : Conn) (v : Byte) (rest : List Byte)
    (hin : conn.input = v :: rest) (hv : v ≠ 0x05) :
    (∃ e, (handleHandshake conn).1 = some e)
    ∧ (rest ≠ [] → (handleHandshake conn).1 = some (Error.new "unsupported SOCKS version"))
    ∧ (handleHandshake conn).2.log = conn.log
    ∧ (handleHandshake conn).2.input = conn.input.drop 2 :=
  handshake_bad_version_aux conn v rest hin hv

theorem handshake_bad_version_witness :
    (∃ e, (handleHandshake ⟨[4, 1, 0, 9], Error.eof, [], []⟩).1 = some e)
    ∧ (([1, 0, 9] : List Byte) ≠ [] →
        (handleHandshake ⟨[4, 1, 0, 9], Error.eof, [], []⟩).1
          = some (Error.new "unsupported SOCKS version"))
    ∧ (handleHandshake ⟨[4, 1, 0, 9], Error.eof, [], []⟩).2.log = []
    ∧ (handleHandshake ⟨[4, 1, 0, 9], Error.eof, [], []⟩).2.input
        = ([4, 1, 0, 9] : List Byte).drop 2 :=
  handshake_bad_version ⟨[4, 1, 0, 9], Error.eof, [], []⟩ 4 [1, 0, 9] rfl (by decide)

/-- C15: on a request whose version byte is not 5, whatever its command, reserved and
address-type bytes, `handleRequest` returns the error "unsupported SOCKS version"
with no connection, performs no write and no dial (its log is unchanged), and
leaves the bytes after the header unread. -/
theorem request_bad_version (dial : Dialer) (conn : Conn) (v cmd rsv atyp : Byte)
    (rest : List Byte) (hin : conn.input = v :: cmd :: rsv :: atyp :: rest)
    (hv : v ≠ 0x05) :
    (handleRequest dial conn).1 = .error (Error.new "unsupported SOCKS version")
    ∧ (handleRequest dial conn).2.log = conn.log
    ∧ (handleRequest dial conn).2.input = rest := by
  rw [handleRequest_bad_version dial conn v cmd rsv atyp rest hin hv]
  exact ⟨rfl, rfl, rfl⟩

theorem request_bad_version_witness :
    (handleRequest (fun _ => .ok ⟨1, ⟨[10, 0, 0, 2], 40000⟩⟩)
        ⟨[4, 1, 0, 1, 127, 0, 0, 1, 0, 80], Error.eof, [], []⟩).1
      = .error (Error.new "unsupported SOCKS version")
    ∧ (handleRequest (fun _ => .ok ⟨1, ⟨[10, 0, 0, 2], 40000⟩⟩)
        ⟨[4, 1, 0, 1, 127, 0, 0, 1, 0, 80], Error.eof, [], []⟩).2.log = []
    ∧ (handleRequest (fun _ => .ok ⟨1, ⟨[10, 0, 0, 2], 40000⟩⟩)
        ⟨[4, 1, 0, 1, 127, 0, 0, 1, 0, 80], Error.eof, [], []⟩).2.input
      = [127, 0, 0, 1, 0, 80] :=
  request_bad_version (fun _ => .ok ⟨1, ⟨[10, 0, 0, 2], 40000⟩⟩)
    ⟨[4, 1, 0, 1, 127, 0, 0, 1, 0, 80], Error.eof, [], []⟩ 4 1 0 1 [127, 0, 0, 1, 0, 80]
    rfl (by decide)

/-- C16, as stated, fails in the 0xFF branch: on the greeting `05 01 02` (no method
0x00) with a transport whose next write fails with error 32, `handleHandshake`
attempts the write of `05 ff`, drops its result and returns the error
"no acceptable auth method", not the write error. -/
theorem handshake_write_failure_counterexample :
    handleHandshake ⟨[5, 1, 2], Error.eof, [some (Error.transport 32)], []⟩
      = (some (Error.new "no acceptable auth method"),
          ⟨[], Error.eof, [], [Event.write [0x05, 0xFF]]⟩) :=
  rfl

/-- C16 (amended): on a version-5 greeting that is read in full, if the write of the
method-selection frame fails then `handleHandshake` fails: when the selection is
0x00 it returns the write error of the transport; when the selection is 0xFF it
returns the error "no acceptable auth method". -/
theorem handshake_write_failure (conn : Conn) (n : Byte) (methods rest : List Byte)
    (e : Error) (hin : conn.input = 0x05 :: n :: (methods ++ rest))
    (hlen : methods.length = n.val) (hw : conn.nextWriteErr = some e) :
    ((0x00 : Byte) ∈ methods →
      (handleHandshake conn).1 = some e
      ∧ (handleHandshake conn).2.log = conn.log ++ [Event.write [0x05, 0x00]])
    ∧ ((0x00 : Byte) ∉ methods →
      (handleHandshake conn).1 = some (Error.new "no acceptable auth method")
      ∧ (handleHandshake conn).2.log = conn.log ++ [Event.write [0x05, 0xFF]]) := by
  rw [handleHandshake_greeting conn n methods rest hin hlen]
  refine ⟨fun hmem => ?_, fun hnot => ?_⟩
  · rw [(scanNoAuth_iff methods).mpr hmem, if_pos rfl]
    exact ⟨hw, rfl⟩
  · have hs : scanNoAuth methods = false := by
      cases h : scanNoAuth methods with
      | false => rfl
      | true => exact absurd ((scanNoAuth_iff methods).mp h) hnot
    rw [hs, if_neg (by simp)]
    exact ⟨rfl, rfl⟩

theorem handshake_write_failure_witness :
    (handleHandshake ⟨[5, 2, 1, 0, 9], Error.eof, [some (Error.transport 32)], []⟩).1
      = some (Error.transport 32)
    ∧ (handleHandshake ⟨[5, 2, 1, 0, 9], Error.eof, [some (Error.transport 32)], []⟩).2.log
      = [] ++ [Event.write [0x05, 0x00]] :=
  (handshake_write_failure ⟨[5, 2, 1, 0, 9], Error.eof, [some (Error.transport 32)], []⟩
    2 [1, 0] [9] (Error.transport 32) rfl rfl rfl).1 (by decide)

/-! ## Connection supervisor: how `handleConnection` continues after each stage -/

theorem handleConnection_handshake_failed (dial : Dialer) (conn : Conn) (e : Error)
    (h : (handleHandshake conn).1 = some e) :
    handleConnection dial conn = (handleHandshake conn).2.close := by
  unfold handleConnection
  rcases hh : handleHandshake conn with ⟨r, c⟩
  rw [hh] at h
  simp only at h
  subst h
  rfl

theorem handleConnection_request_failed (dial : Dialer) (conn : Conn) (e : Error)
    (h : (handleHandshake conn).1 = none)
    (hr : (handleRequest dial (handleHandshake conn).2).1 = .error e) :
    handleConnection dial conn = (handleRequest dial (handleHandshake conn).2).2.close := by
  unfold handleConnection
  rcases hh : handleHandshake conn with ⟨r, c⟩
  rw [hh] at h hr
  simp only at h hr
  subst h
  rcases hq : handleRequest dial c with ⟨q, c2⟩
  rw [hq] at hr
  simp only at hr
  subst hr
  simp only [hq]

theorem handleConnection_relayed (dial : Dialer) (conn : Conn) (tc : TargetConn)
    (h : (handleHandshake conn).1 = none)
    (hr : (handleRequest dial (handleHandshake conn).2).1 = .ok tc) :
    handleConnection dial conn
      = (closeTarget (relay (handleRequest dial (handleHandshake conn).2).2 tc) tc).close := by
  unfold handleConnection
  rcases hh : handleHandshake conn with ⟨r, c⟩
  rw [hh] at h hr
  simp only at h hr
  subst h
  rcases hq : handleRequest dial c with ⟨q, c2⟩
  rw [hq] at hr
  simp only at hr
  subst hr
  simp only [hq]

/-- Every execution of `handleHandshake` ends in one of four ways. -/
theorem handleHandshake_outcomes (conn : Conn) :
    ((handleHandshake conn).1 = none
      ∧ (handleHandshake conn).2.log = conn.log ++ [Event.write [0x05, 0x00]])
    ∨ (∃ e, (handleHandshake conn).1 = some e
      ∧ ((handleHandshake conn).2.log = conn.log
        ∨ (handleHandshake conn).2.log = conn.log ++ [Event.write [0x05, 0xFF]]
        ∨ (handleHandshake conn).2.log = conn.log ++ [Event.write [0x05, 0x00]])) := by
  by_cases h2 : conn.input.length < 2
  · have hs := readFull_short conn 2 h2
    unfold handleHandshake
    rw [hs]
    exact Or.inr ⟨_, rfl, Or.inl rfl⟩
  · match hi : conn.input, h2 with
    | v :: n :: rest, _ =>
      by_cases hv : v = 0x05
      · subst hv
        by_cases hn : n.val ≤ rest.length
        · have hg := handleHandshake_greeting conn n (rest.take n.val) (rest.drop n.val)
            (by rw [hi, List.take_append_drop]; rfl) (by simp [hn])
          rw [hg]
          cases scanNoAuth (rest.take n.val) with
          | true =>
            rw [if_pos rfl]
            cases hw : conn.nextWriteErr with
            | none => exact Or.inl ⟨hw, rfl⟩
            | some e => exact Or.inr ⟨e, hw, Or.inr (Or.inr rfl)⟩
          | false =>
            rw [if_neg (by simp)]
            exact Or.inr ⟨_, rfl, Or.inr (Or.inl rfl)⟩
        · have h1 : readFull conn 2 = (.ok [0x05, n], { conn with input := rest }) :=
            readFull_exact conn [0x05, n] rest 2 (by simpa using hi) rfl
          have hs := readFull_short ({ conn with input := rest } : Conn) n.val
            (by simp only; omega)
          unfold handleHandshake
          rw [h1]
          simp only [List.getD_cons_zero, List.getD_cons_succ]
          rw [if_neg (by simp [socks5Version]), hs]
          exact Or.inr ⟨_, rfl, Or.inl rfl⟩
      · obtain ⟨_, _, hl, _⟩ := handshake_bad_version_aux conn v (n :: rest) hi hv
        obtain ⟨e, he⟩ := (handshake_bad_version_aux conn v (n :: rest) hi hv).1
        exact Or.inr ⟨e, he, Or.inl hl⟩
    | [], h | [_], h => simp at h

theorem close_log (conn : Conn) : conn.close.log = conn.log ++ [Event.closeClient] := rfl

theorem relayed_log (conn : Conn) (tc : TargetConn) :
    (closeTarget (relay conn tc) tc).close.log
      = conn.log ++ [Event.relay tc, Event.closeTarget tc, Event.closeClient] := by
  simp [Conn.close, closeTarget, relay]

/-- The effects of a whole connection: the handshake failed, or the request failed,
or the connection was relayed. -/
theorem handleConnection_trace (dial : Dialer) (conn : Conn) :
    (∃ e ev, (handleHandshake conn).1 = some e
      ∧ (ev = [] ∨ ev = [Event.write [0x05, 0xFF]] ∨ ev = [Event.write [0x05, 0x00]])
      ∧ (handleConnection dial conn).log = conn.log ++ (ev ++ [Event.closeClient]))
    ∨ ((handleHandshake conn).1 = none
      ∧ ∃ e ev, (handleRequest dial (handleHandshake conn).2).1 = .error e
        ∧ (ev = [] ∨ ev = [Event.write (replyFrame 0x07 none)]
          ∨ ev = [Event.write (replyFrame 0x08 none)]
          ∨ ∃ t, dial t = .error e ∧ ev = [Event.dial t, Event.write (replyFrame 0x05 none)])
        ∧ (handleConnection dial conn).log
          = conn.log ++ ([Event.write [0x05, 0x00]] ++ ev ++ [Event.closeClient]))
    ∨ ((handleHandshake conn).1 = none
      ∧ ∃ t tc, (handleRequest dial (handleHandshake conn).2).1 = .ok tc
        ∧ dial t = .ok tc
        ∧ (handleConnection dial conn).log
          = conn.log ++
            [Event.write [0x05, 0x00], Event.dial t,
              Event.write (replyFrame 0x00 (some tc.localAddr)), Event.relay tc,
              Event.closeTarget tc, Event.closeClient]) := by
  rcases handleHandshake_outcomes conn with ⟨hok, hlog⟩ | ⟨e, herr, hlog⟩
  · rcases handleRequest_outcomes dial (handleHandshake conn).2 with
      ⟨e, he, hl | hl | hl⟩ | ⟨t, e, hd, he, hl⟩ | ⟨t, tc, hd, hres, hl⟩
    · refine Or.inr (Or.inl ⟨hok, e, [], he, Or.inl rfl, ?_⟩)
      rw [handleConnection_request_failed dial conn e hok he, close_log, hl, hlog]
      simp
    · refine Or.inr (Or.inl ⟨hok, e, _, he, Or.inr (Or.inl rfl), ?_⟩)
      rw [handleConnection_request_failed dial conn e hok he, close_log, hl, hlog]
      simp
    · refine Or.inr (Or.inl ⟨hok, e, _, he, Or.inr (Or.inr (Or.inl rfl)), ?_⟩)
      rw [handleConnection_request_failed dial conn e hok he, close_log, hl, hlog]
      simp
    · refine Or.inr (Or.inl ⟨hok, e, _, he, Or.inr (Or.inr (Or.inr ⟨t, hd, rfl⟩)), ?_⟩)
      rw [handleConnection_request_failed dial conn e hok he, close_log, hl, hlog]
      simp
    · refine Or.inr (Or.inr ⟨hok, t, tc, hres, hd, ?_⟩)
      rw [handleConnection_relayed dial conn tc hok hres, relayed_log, hl, hlog]
      simp
  · rw [handleConnection_handshake_failed dial conn e herr, close_log]
    rcases hlog with hl | hl | hl
    · exact Or.inl ⟨e, [], herr, Or.inl rfl, by rw [hl]; simp⟩
    · exact Or.inl ⟨e, _, herr, Or.inr (Or.inl rfl), by rw [hl]; simp⟩
    · exact Or.inl ⟨e, _, herr, Or.inr (Or.inr rfl), by rw [hl]; simp⟩

/-! ## Connection supervisor: the claims -/

/-- C17: in every execution of `handleConnection` the stages run in order.
After a failed handshake nothing runs but the close of the client socket (so
`handleRequest` reads nothing and nothing is dialed).  A dial occurs only when
`handleHandshake` returned success, and then the write of `05 00` is the first
effect.  After a failed request nothing runs but the close.  A relay occurs only
when `handleRequest` returned that connection, and it comes right after the dial
and the write of the success Reply. -/
theorem stages_in_order (dial : Dialer) (conn : Conn) :
    (∀ e, (handleHandshake conn).1 = some e →
      handleConnection dial conn = (handleHandshake conn).2.close)
    ∧ ((handleHandshake conn).1 = none →
      (handleHandshake conn).2.log = conn.log ++ [Event.write [0x05, 0x00]])
    ∧ (∀ t, Event.dial t ∈ (handleConnection dial conn).log.drop conn.log.length →
      (handleHandshake conn).1 = none
      ∧ ((handleConnection dial conn).log.drop conn.log.length).head?
          = some (Event.write [0x05, 0x00]))
    ∧ (∀ e, (handleHandshake conn).1 = none →
      (handleRequest dial (handleHandshake conn).2).1 = .error e →
      handleConnection dial conn = (handleRequest dial (handleHandshake conn).2).2.close)
    ∧ (∀ tc, Event.relay tc ∈ (handleConnection dial conn).log.drop conn.log.length →
      (handleHandshake conn).1 = none
      ∧ (handleRequest dial (handleHandshake conn).2).1 = .ok tc
      ∧ ∃ t, (handleConnection dial conn).log.drop conn.log.length
          = [Event.write [0x05, 0x00], Event.dial t,
              Event.write (replyFrame 0x00 (some tc.localAddr)), Event.relay tc,
              Event.closeTarget tc, Event.closeClient]) := by
  refine ⟨fun e h => handleConnection_handshake_failed dial conn e h, fun h => ?_,
    fun t hm => ?_, fun e h hr => handleConnection_request_failed dial conn e h hr,
    fun tc hm => ?_⟩
  · rcases handleHandshake_outcomes conn with ⟨_, hlog⟩ | ⟨e, herr, _⟩
    · exact hlog
    · rw [h] at herr
      simp at herr
  · rcases handleConnection_trace dial conn with
      ⟨e, ev, _, hev, hlog⟩ | ⟨hok, e, ev, _, hev, hlog⟩ | ⟨hok, t0, tc, _, _, hlog⟩
    · rw [hlog, drop_log] at hm
      rcases hev with h | h | h <;> subst h <;> simp at hm
    · rw [hlog, drop_log]
      exact ⟨hok, rfl⟩
    · rw [hlog, drop_log]
      exact ⟨hok, rfl⟩
  · rcases handleConnection_trace dial conn with
      ⟨e, ev, _, hev, hlog⟩ | ⟨hok, e, ev, _, hev, hlog⟩ | ⟨hok, t0, tc0, hres, _, hlog⟩
    · rw [hlog, drop_log] at hm
      rcases hev with h | h | h <;> subst h <;> simp at hm
    · rw [hlog, drop_log] at hm
      rcases hev with h | h | h | ⟨t, _, h⟩ <;> subst h <;> simp at hm
    · rw [hlog, drop_log] at hm ⊢
      have htc : tc = tc0 := by simpa using hm
      subst htc
      exact ⟨hok, hres, t0, rfl⟩

theorem stages_in_order_witness :
    (handleHandshake ⟨[5, 1, 0, 5, 1, 0, 1, 127, 0, 0, 1, 0, 80], Error.eof, [], []⟩).1 = none
    ∧ (handleRequest (fun _ => .ok ⟨1, ⟨[10, 0, 0, 2], 40000⟩⟩)
        (handleHandshake
          ⟨[5, 1, 0, 5, 1, 0, 1, 127, 0, 0, 1, 0, 80], Error.eof, [], []⟩).2).1
      = .ok ⟨1, ⟨[10, 0, 0, 2], 40000⟩⟩
    ∧ ∃ t, (handleConnection (fun _ => .ok ⟨1, ⟨[10, 0, 0, 2], 40000⟩⟩)
        ⟨[5, 1, 0, 5, 1, 0, 1, 127, 0, 0, 1, 0, 80], Error.eof, [], []⟩).log.drop 0
      = [Event.write [0x05, 0x00], Event.dial t,
          Event.write (replyFrame 0x00 (some ⟨[10, 0, 0, 2], 40000⟩)),
          Event.relay ⟨1, ⟨[10, 0, 0, 2], 40000⟩⟩,
          Event.closeTarget ⟨1, ⟨[10, 0, 0, 2], 40000⟩⟩, Event.closeClient] :=
  (stages_in_order (fun _ => .ok ⟨1, ⟨[10, 0, 0, 2], 40000⟩⟩)
    ⟨[5, 1, 0, 5, 1, 0, 1, 127, 0, 0, 1, 0, 80], Error.eof, [], []⟩).2.2.2.2
    ⟨1, ⟨[10, 0, 0, 2], 40000⟩⟩
    (List.Mem.tail _ (List.Mem.tail _ (List.Mem.tail _ (List.Mem.head _))))

/-- C19: on every exit path of `handleConnection` the client socket is closed exactly
once, and that close is the last effect; the destination socket is closed exactly
once when `handleRequest` returned it, and no destination socket is closed
otherwise; `relay` itself closes neither socket (its only effect in the log is the
relay event). -/
theorem sockets_closed_once (dial : Dialer) (conn : Conn) :
    ((handleConnection dial conn).log.drop conn.log.length).count Event.closeClient = 1
    ∧ ((handleConnection dial conn).log.drop conn.log.length).getLast?
        = some Event.closeClient
    ∧ (∀ tc, (handleHandshake conn).1 = none →
        (handleRequest dial (handleHandshake conn).2).1 = .ok tc →
        ((handleConnection dial conn).log.drop conn.log.length).count (Event.closeTarget tc)
          = 1)
    ∧ (∀ tc, Event.closeTarget tc ∈ (handleConnection dial conn).log.drop conn.log.length →
        (handleHandshake conn).1 = none
        ∧ (handleRequest dial (handleHandshake conn).2).1 = .ok tc)
    ∧ (∀ (c : Conn) (tc : TargetConn), (relay c tc).log = c.log ++ [Event.relay tc]) := by
  rcases handleConnection_trace dial conn with
    ⟨e, ev, herr, hev, hlog⟩ | ⟨hok, e, ev, herr, hev, hlog⟩ | ⟨hok, t0, tc0, hres, _, hlog⟩
  · rw [hlog, drop_log]
    refine ⟨?_, ?_, fun tc h => ?_, fun tc hm => ?_, fun _ _ => rfl⟩
    · rcases hev with h | h | h <;> subst h <;> simp
    · rcases hev with h | h | h <;> subst h <;> simp
    · rw [h] at herr
      simp at herr
    · rcases hev with h | h | h <;> subst h <;> simp at hm
  · rw [hlog, drop_log]
    refine ⟨?_, ?_, fun tc _ h => ?_, fun tc hm => ?_, fun _ _ => rfl⟩
    · rcases hev with h | h | h | ⟨t, _, h⟩ <;> subst h <;> simp
    · rcases hev with h | h | h | ⟨t, _, h⟩ <;> subst h <;> simp
    · rw [h] at herr
      simp at herr
    · rcases hev with h | h | h | ⟨t, _, h⟩ <;> subst h <;> simp at hm
  · rw [hlog, drop_log]
    refine ⟨by simp, by simp, fun tc _ h => ?_, fun tc hm => ?_, fun _ _ => rfl⟩
    · rw [hres] at h
      have htc : tc0 = tc := by simpa using h
      subst htc
      simp
    · have htc : tc = tc0 := by simpa using hm
      subst htc
      exact ⟨hok, hres⟩

theorem sockets_closed_once_witness :
    ((handleConnection (fun _ => .ok ⟨1, ⟨[10, 0, 0, 2], 40000⟩⟩)
        ⟨[5, 1, 0, 5, 1, 0, 1, 127, 0, 0, 1, 0, 80], Error.eof, [], []⟩).log.drop 0).count
        (Event.closeTarget ⟨1, ⟨[10, 0, 0, 2], 40000⟩⟩) = 1 :=
  (sockets_closed_once (fun _ => .ok ⟨1, ⟨[10, 0, 0, 2], 40000⟩⟩)
    ⟨[5, 1, 0, 5, 1, 0, 1, 127, 0, 0, 1, 0, 80], Error.eof, [], []⟩).2.2.1
    ⟨1, ⟨[10, 0, 0, 2], 40000⟩⟩ rfl rfl

theorem handleHandshake_accepts (conn : Conn) (n : Byte) (methods rest : List Byte)
    (hin : conn.input = 0x05 :: n :: (methods ++ rest)) (hlen : methods.length = n.val)
    (hmem : (0x00 : Byte) ∈ methods) (hw : conn.nextWriteErr = none) :
    handleHandshake conn
      = (none, ⟨rest, conn.readErr, conn.writeErrs.tail,
          conn.log ++ [Event.write [0x05, 0x00]]⟩) := by
  rw [handleHandshake_greeting conn n methods rest hin hlen,
    (scanNoAuth_iff methods).mpr hmem, if_pos rfl]
  show ((⟨rest, conn.readErr, conn.writeErrs, conn.log⟩ : Conn).nextWriteErr, _) = _
  have : (⟨rest, conn.readErr, conn.writeErrs, conn.log⟩ : Conn).nextWriteErr
      = conn.nextWriteErr := rfl
  rw [this, hw]
  rfl

/-- C13, as stated, fails when the write of the method selection fails: on the stream
`05 01 00 05 01 00 01 7f 00 00 01 00 50` with a transport whose first write fails,
`handleConnection` attempts the write of `05 00`, closes the client socket and
returns; the request is left unread and nothing is dialed. -/
theorem connect_scenario_counterexample :
    handleConnection (fun _ => .ok ⟨1, ⟨[10, 0, 0, 2], 40000⟩⟩)
        ⟨[5, 1, 0, 5, 1, 0, 1, 0x7f, 0, 0, 1, 0, 0x50], Error.eof,
          [some (Error.transport 32)], []⟩
      = ⟨[5, 1, 0, 1, 0x7f, 0, 0, 1, 0, 0x50], Error.eof, [],
          [Event.write [0x05, 0x00], Event.closeClient]⟩ :=
  rfl

/-- The scenario of a greeting followed by an IPv4 CONNECT request when the write of
the method selection succeeds: the request is dialed and, on success, relayed. -/
theorem connect_scenario_write_ok (dial : Dialer) (conn : Conn) (n rsv a b c d h l : Byte)
    (methods rest : List Byte)
    (hin : conn.input = 0x05 :: n ::
      (methods ++ 0x05 :: 0x01 :: rsv :: 0x01 :: a :: b :: c :: d :: h :: l :: rest))
    (hlen : methods.length = n.val) (hmem : (0x00 : Byte) ∈ methods)
    (hw : conn.nextWriteErr = none) :
    (handleHandshake conn).2.input
        = 0x05 :: 0x01 :: rsv :: 0x01 :: a :: b :: c :: d :: h :: l :: rest
    ∧ (∃ target,
        target = toString a.val ++ "." ++ toString b.val ++ "." ++ toString c.val ++ "."
          ++ toString d.val ++ ":" ++ toString (h.val * 256 + l.val)
        ∧ (∃ more, (handleConnection dial conn).log
            = conn.log ++ [Event.write [0x05, 0x00], Event.dial target] ++ more)
        ∧ (∀ tc, dial target = .ok tc →
            ∃ x y z w hi lo : Byte,
              (handleConnection dial conn).log
                = conn.log ++
                  [Event.write [0x05, 0x00], Event.dial target,
                    Event.write [0x05, 0x00, 0x00, 0x01, x, y, z, w, hi, lo],
                    Event.relay tc, Event.closeTarget tc, Event.closeClient]
              ∧ [x, y, z, w] = (to4 tc.localAddr.ip).getD [0, 0, 0, 0]
              ∧ ((hi.val * 256 + lo.val : Nat) : Int) = tc.localAddr.port % 65536))
    ∧ toString (0x7f : Byte).val ++ "." ++ toString (0x00 : Byte).val ++ "."
        ++ toString (0x00 : Byte).val ++ "." ++ toString (0x01 : Byte).val ++ ":"
        ++ toString ((0x00 : Byte).val * 256 + (0x50 : Byte).val) = "127.0.0.1:80" := by
  have hs := handleHandshake_accepts conn n methods _ hin hlen hmem hw
  have hd := handleRequest_dials dial
    ⟨0x05 :: 0x01 :: rsv :: 0x01 :: a :: b :: c :: d :: h :: l :: rest, conn.readErr,
      conn.writeErrs.tail, conn.log ++ [Event.write [0x05, 0x00]]⟩
    rsv ipv4Addr h l [a, b, c, d] rest rfl (Or.inl rfl) rfl
  have ht : sprintfHostPort (hostOf ipv4Addr [a, b, c, d]) (h.val * 256 + l.val)
      = toString a.val ++ "." ++ toString b.val ++ "." ++ toString c.val ++ "."
          ++ toString d.val ++ ":" ++ toString (h.val * 256 + l.val) := by
    have hh : hostOf ipv4Addr [a, b, c, d] = ipString [a, b, c, d] := by
      simp [hostOf, ipv4Addr, domainAddr]
    rw [hh, ipString_four]
    rfl
  rw [ht] at hd
  refine ⟨by rw [hs], ⟨_, rfl, ?_, ?_⟩, by decide⟩
  · cases hdial : dial (toString a.val ++ "." ++ toString b.val ++ "." ++ toString c.val
        ++ "." ++ toString d.val ++ ":" ++ toString (h.val * 256 + l.val)) with
    | error e =>
      rw [hdial] at hd
      have hok : (handleHandshake conn).1 = none := by rw [hs]
      have hr : (handleRequest dial (handleHandshake conn).2).1 = .error e := by
        rw [hs]
        show (handleRequest dial _).1 = _
        rw [hd]
      rw [handleConnection_request_failed dial conn e hok hr, close_log, hs]
      show ∃ more, (handleRequest dial _).2.log ++ _ = _
      rw [hd]
      exact ⟨[Event.write (replyFrame 0x05 none), Event.closeClient], by
        show (sendReply _ 0x05 none).log ++ _ = _
        rw [sendReply_log]
        simp⟩
    | ok tc =>
      rw [hdial] at hd
      have hok : (handleHandshake conn).1 = none := by rw [hs]
      have hr : (handleRequest dial (handleHandshake conn).2).1 = .ok tc := by
        rw [hs]
        show (handleRequest dial _).1 = _
        rw [hd]
      rw [handleConnection_relayed dial conn tc hok hr, relayed_log, hs]
      show ∃ more, (handleRequest dial _).2.log ++ _ = _
      rw [hd]
      exact ⟨[Event.write (replyFrame 0x00 (some tc.localAddr)), Event.relay tc,
        Event.closeTarget tc, Event.closeClient], by
        show (sendReply _ 0x00 (some tc.localAddr)).log ++ _ = _
        rw [sendReply_log]
        simp⟩
  · intro tc hdial
    rw [hdial] at hd
    have hok : (handleHandshake conn).1 = none := by rw [hs]
    have hr : (handleRequest dial (handleHandshake conn).2).1 = .ok tc := by
      rw [hs]
      show (handleRequest dial _).1 = _
      rw [hd]
    obtain ⟨x, y, z, w, hframe, haddr⟩ := replyFrame_some 0x00 tc.localAddr
    refine ⟨x, y, z, w, Fin.ofNat (uint16 tc.localAddr.port / 256),
      Fin.ofNat (uint16 tc.localAddr.port), ?_, haddr, ?_⟩
    · rw [handleConnection_relayed dial conn tc hok hr, relayed_log, hs]
      show (handleRequest dial _).2.log ++ _ = _
      rw [hd]
      show (sendReply _ 0x00 (some tc.localAddr)).log ++ _ = _
      rw [sendReply_log, hframe]
      simp
    · have hlt := uint16_lt tc.localAddr.port
      have hv : ((uint16 tc.localAddr.port : Nat) : Int) = tc.localAddr.port % 65536 := by
        unfold uint16
        omega
      rw [← hv]
      simp only [Fin.ofNat, Fin.val_mk]
      omega

/-- C13 (amended): on a client stream made of a version-5 greeting that offers method
0x00, followed at once by a CONNECT request with address type 0x01, address bytes
a b c d and port bytes h l, `handleConnection` consumes exactly the greeting in the
handshake and writes `05 00` as its first effect, whether that write succeeds or
not.  When that write succeeds it then dials the target "a.b.c.d:P" with
P = 256*h + l in decimal and, when the dial succeeds, writes `05 00 00 01` followed
by the local IPv4 address (four bytes) and the local port (two bytes, big-endian)
before relaying.  When that write fails the only further effect is the close of the
client socket: the request stays unread and nothing is dialed.  For the address
bytes 7f 00 00 01 and the port bytes 00 50 the target is "127.0.0.1:80". -/
theorem connect_scenario (dial : Dialer) (conn : Conn) (n rsv a b c d h l : Byte)
    (methods rest : List Byte)
    (hin : conn.input = 0x05 :: n ::
      (methods ++ 0x05 :: 0x01 :: rsv :: 0x01 :: a :: b :: c :: d :: h :: l :: rest))
    (hlen : methods.length = n.val) (hmem : (0x00 : Byte) ∈ methods) :
    (handleHandshake conn).2.input
        = 0x05 :: 0x01 :: rsv :: 0x01 :: a :: b :: c :: d :: h :: l :: rest
    ∧ (handleHandshake conn).2.log = conn.log ++ [Event.write [0x05, 0x00]]
    ∧ (∃ more, (handleConnection dial conn).log
        = conn.log ++ [Event.write [0x05, 0x00]] ++ more)
    ∧ (conn.nextWriteErr = none →
      ∃ target,
        target = toString a.val ++ "." ++ toString b.val ++ "." ++ toString c.val ++ "."
          ++ toString d.val ++ ":" ++ toString (h.val * 256 + l.val)
        ∧ (∃ more, (handleConnection dial conn).log
            = conn.log ++ [Event.write [0x05, 0x00], Event.dial target] ++ more)
        ∧ (∀ tc, dial target = .ok tc →
            ∃ x y z w hi lo : Byte,
              (handleConnection dial conn).log
                = conn.log ++
                  [Event.write [0x05, 0x00], Event.dial target,
                    Event.write [0x05, 0x00, 0x00, 0x01, x, y, z, w, hi, lo],
                    Event.relay tc, Event.closeTarget tc, Event.closeClient]
              ∧ [x, y, z, w] = (to4 tc.localAddr.ip).getD [0, 0, 0, 0]
              ∧ ((hi.val * 256 + lo.val : Nat) : Int) = tc.localAddr.port % 65536))
    ∧ (∀ e, conn.nextWriteErr = some e →
      (handleConnection dial conn).log
          = conn.log ++ [Event.write [0x05, 0x00], Event.closeClient]
      ∧ (handleConnection dial conn).input
          = 0x05 :: 0x01 :: rsv :: 0x01 :: a :: b :: c :: d :: h :: l :: rest)
    ∧ toString (0x7f : Byte).val ++ "." ++ toString (0x00 : Byte).val ++ "."
        ++ toString (0x00 : Byte).val ++ "." ++ toString (0x01 : Byte).val ++ ":"
        ++ toString ((0x00 : Byte).val * 256 + (0x50 : Byte).val) = "127.0.0.1:80" := by
  have hg := handleHandshake_greeting conn n methods _ hin hlen
  rw [(scanNoAuth_iff methods).mpr hmem, if_pos rfl] at hg
  have hin2 : (handleHandshake conn).2.input
      = 0x05 :: 0x01 :: rsv :: 0x01 :: a :: b :: c :: d :: h :: l :: rest := by
    rw [hg]
    rfl
  have hlog : (handleHandshake conn).2.log = conn.log ++ [Event.write [0x05, 0x00]] := by
    rw [hg]
    rfl
  have herr : (handleHandshake conn).1 = conn.nextWriteErr := by
    rw [hg]
    rfl
  have hfail : ∀ e, conn.nextWriteErr = some e →
      (handleConnection dial conn).log
          = conn.log ++ [Event.write [0x05, 0x00], Event.closeClient]
      ∧ (handleConnection dial conn).input
          = 0x05 :: 0x01 :: rsv :: 0x01 :: a :: b :: c :: d :: h :: l :: rest := by
    intro e he
    rw [handleConnection_handshake_failed dial conn e (by rw [herr, he])]
    refine ⟨?_, ?_⟩
    · rw [close_log, hlog]
      simp
    · show (handleHandshake conn).2.input = _
      exact hin2
  refine ⟨hin2, hlog, ?_,
    fun hw => (connect_scenario_write_ok dial conn n rsv a b c d h l methods rest
      hin hlen hmem hw).2.1,
    hfail, by decide⟩
  cases hw : conn.nextWriteErr with
  | none =>
    obtain ⟨target, _, ⟨more, hmore⟩, _⟩ :=
      (connect_scenario_write_ok dial conn n rsv a b c d h l methods rest
        hin hlen hmem hw).2.1
    exact ⟨Event.dial target :: more, by rw [hmore]; simp⟩
  | some e =>
    exact ⟨[Event.closeClient], by rw [(hfail e hw).1]; simp⟩

theorem connect_scenario_witness :
    (handleHandshake
        ⟨[5, 1, 0, 5, 1, 0, 1, 0x7f, 0, 0, 1, 0, 0x50], Error.eof, [], []⟩).2.input
      = [5, 1, 0, 1, 0x7f, 0, 0, 1, 0, 0x50]
    ∧ ∃ target, target = "127.0.0.1:80"
      ∧ (∃ more, (handleConnection (fun _ => .ok ⟨1, ⟨[10, 0, 0, 2], 40000⟩⟩)
          ⟨[5, 1, 0, 5, 1, 0, 1, 0x7f, 0, 0, 1, 0, 0x50], Error.eof, [], []⟩).log
        = [] ++ [Event.write [0x05, 0x00], Event.dial target] ++ more)
      ∧ (∀ tc, (fun _ => .ok ⟨1, ⟨[10, 0, 0, 2], 40000⟩⟩ : Dialer) target = .ok tc →
          ∃ x y z w hi lo : Byte,
            (handleConnection (fun _ => .ok ⟨1, ⟨[10, 0, 0, 2], 40000⟩⟩)
                ⟨[5, 1, 0, 5, 1, 0, 1, 0x7f, 0, 0, 1, 0, 0x50], Error.eof, [], []⟩).log
              = [] ++
                [Event.write [0x05, 0x00], Event.dial target,
                  Event.write [0x05, 0x00, 0x00, 0x01, x, y, z, w, hi, lo],
                  Event.relay tc, Event.closeTarget tc, Event.closeClient]
            ∧ [x, y, z, w] = (to4 tc.localAddr.ip).getD [0, 0, 0, 0]
            ∧ ((hi.val * 256 + lo.val : Nat) : Int) = tc.localAddr.port % 65536) :=
  ⟨(connect_scenario (fun _ => .ok ⟨1, ⟨[10, 0, 0, 2], 40000⟩⟩)
      ⟨[5, 1, 0, 5, 1, 0, 1, 0x7f, 0, 0, 1, 0, 0x50], Error.eof, [], []⟩
      1 0 0x7f 0 0 1 0 0x50 [0] [] rfl rfl (by decide)).1,
    (connect_scenario (fun _ => .ok ⟨1, ⟨[10, 0, 0, 2], 40000⟩⟩)
      ⟨[5, 1, 0, 5, 1, 0, 1, 0x7f, 0, 0, 1, 0, 0x50], Error.eof, [], []⟩
      1 0 0x7f 0 0 1 0 0x50 [0] [] rfl rfl (by decide)).2.2.2.1 rfl⟩

/-! ## Dial target of an IPv6 request -/

/-- C20: at the CONNECT request `05 01 00 04` + `2001:db8::1` + `00 50` the target that
`handleRequest` passes to the dialer is "2001:db8::1:80", the host and the port
joined by a bare colon, whereas `net.JoinHostPort` of the decoded host and port is
"[2001:db8::1]:80". -/
theorem ipv6_target_without_brackets :
    (handleRequest (fun _ => .error (Error.transport 111))
        ⟨[5, 1, 0, 4, 0x20, 0x01, 0x0d, 0xb8, 0, 0, 0, 0, 0, 0, 0, 0, 0, 0, 0, 1, 0, 0x50],
          Error.eof, [], []⟩).2.log
      = [Event.dial "2001:db8::1:80",
          Event.write [0x05, 0x05, 0x00, 0x01, 0, 0, 0, 0, 0, 0]]
    ∧ joinHostPort
        (hostOf ipv6Addr [0x20, 0x01, 0x0d, 0xb8, 0, 0, 0, 0, 0, 0, 0, 0, 0, 0, 0, 1])
        (toString (bigEndianUint16 [0, 0x50])) = "[2001:db8::1]:80" :=
  ⟨rfl, by decide⟩

/-! ## IPv6 host text -/

theorem range_eight : List.range 8 = [0, 1, 2, 3, 4, 5, 6, 7] := by
  decide

set_option maxHeartbeats 40000000 in
/-- The library routine for the IPv6 text form agrees with the specification side on
every address: by cases on which of the eight groups are zero. -/
theorem string6_eq_spec (ip : List Byte) : string6 ip = specIPv6Text ip := by
  by_cases h0 : v6u16 ip 0 = 0 <;> by_cases h1 : v6u16 ip 1 = 0 <;>
  by_cases h2 : v6u16 ip 2 = 0 <;> by_cases h3 : v6u16 ip 3 = 0 <;>
  by_cases h4 : v6u16 ip 4 = 0 <;> by_cases h5 : v6u16 ip 5 = 0 <;>
  by_cases h6 : v6u16 ip 6 = 0 <;> by_cases h7 : v6u16 ip 7 = 0 <;>
  simp [string6, longestZeroRun, zeroRunEnd, appendGroups, specIPv6Text, shortenedRun,
    zeroRunAt, colonJoin, range_eight, h0, h1, h2, h3, h4, h5, h6, h7, String.append_assoc]

theorem ipString_sixteen (addr : List Byte) (hlen : addr.length = 16) :
    ipString addr = match to4 addr with
      | some p4 => string4 p4
      | none => specIPv6Text addr := by
  unfold ipString
  rw [if_neg (by omega), if_neg (by omega)]
  cases to4 addr with
  | none => exact string6_eq_spec addr
  | some p => rfl

/-- C18, as stated, fails: on the CONNECT request whose 16 address bytes are the
IPv4-mapped address `00 .. 00 ff ff 01 02 03 04`, the host `handleRequest` decodes
is "1.2.3.4" (the dial target is "1.2.3.4:80"): dotted decimal, with no colon,
whereas the IPv6 text form of those bytes is "::ffff:102:304" (or, in mixed
notation, "::ffff:1.2.3.4"). -/
theorem ipv6_host_text_counterexample :
    (handleRequest (fun _ => .error (Error.transport 111))
        ⟨[5, 1, 0, 4, 0, 0, 0, 0, 0, 0, 0, 0, 0, 0, 0xff, 0xff, 1, 2, 3, 4, 0, 0x50],
          Error.eof, [], []⟩).2.log
      = [Event.dial "1.2.3.4:80", Event.write [0x05, 0x05, 0x00, 0x01, 0, 0, 0, 0, 0, 0]]
    ∧ specIPv6Text [0, 0, 0, 0, 0, 0, 0, 0, 0, 0, 0xff, 0xff, 1, 2, 3, 4] = "::ffff:102:304" :=
  ⟨rfl, by decide⟩

/-- C18 (amended): on a CONNECT request with address type 0x04 whose address and port
bytes arrive in full, the host `handleRequest` decodes from the 16 address bytes,
which is the part of the dial target before the last colon and the port, is the
standard IPv6 text form of those bytes when they are not an IPv4-mapped address
(`To4` is nil); when they are IPv4-mapped (ten zero bytes, `ff ff`, then a b c d)
the host is the dotted decimal text a.b.c.d. -/
theorem ipv6_host_text (dial : Dialer) (conn : Conn) (rsv ph pl : Byte)
    (addr rest : List Byte)
    (hin : conn.input = 0x05 :: 0x01 :: rsv :: 0x04 :: (addr ++ ph :: pl :: rest))
    (hlen : addr.length = 16) :
    (to4 addr = none →
      ∃ frame, (handleRequest dial conn).2.log
        = conn.log ++
          [Event.dial (specIPv6Text addr ++ ":" ++ toString (ph.val * 256 + pl.val)),
            Event.write frame])
    ∧ (∀ a b c d : Byte, to4 addr = some [a, b, c, d] →
      addr.drop 12 = [a, b, c, d]
      ∧ ∃ frame, (handleRequest dial conn).2.log
        = conn.log ++
          [Event.dial (toString a.val ++ "." ++ toString b.val ++ "." ++ toString c.val
              ++ "." ++ toString d.val ++ ":" ++ toString (ph.val * 256 + pl.val)),
            Event.write frame]) := by
  have hl : addr.length = addrLen ipv6Addr addr := by
    simp [addrLen, ipv6Addr, ipv4Addr, domainAddr, hlen]
  have hd := handleRequest_dials dial conn rsv ipv6Addr ph pl addr rest hin
    (Or.inr (Or.inr rfl)) hl
  have hh : hostOf ipv6Addr addr = ipString addr := by
    simp [hostOf, ipv6Addr, domainAddr]
  have hframe : ∀ target : String,
      (handleRequest dial conn =
        match dial target with
        | .error err =>
          (.error err,
            sendReply ⟨rest, conn.readErr, conn.writeErrs, conn.log ++ [Event.dial target]⟩
              0x05 none)
        | .ok targetConn =>
          (.ok targetConn,
            sendReply ⟨rest, conn.readErr, conn.writeErrs, conn.log ++ [Event.dial target]⟩
              0x00 (some targetConn.localAddr))) →
      ∃ frame, (handleRequest dial conn).2.log
        = conn.log ++ [Event.dial target, Event.write frame] := by
    intro target h
    rw [h]
    cases dial target with
    | error e =>
      exact ⟨replyFrame 0x05 none, by
        show (sendReply _ 0x05 none).log = _
        rw [sendReply_log]
        simp⟩
    | ok tc =>
      exact ⟨replyFrame 0x00 (some tc.localAddr), by
        show (sendReply _ 0x00 (some tc.localAddr)).log = _
        rw [sendReply_log]
        simp⟩
  rw [hh, ipString_sixteen addr hlen] at hd
  refine ⟨fun hnone => ?_, fun a b c d hsome => ?_⟩
  · rw [hnone] at hd
    exact hframe _ hd
  · rw [hsome] at hd
    refine ⟨?_, hframe _ hd⟩
    unfold to4 at hsome
    rw [if_neg (by omega)] at hsome
    split_ifs at hsome with h16
    have hp : (addr.drop 12).take 4 = [a, b, c, d] := by simpa using hsome
    have hlen4 : (addr.drop 12).length = 4 := by simp [hlen]
    rw [← hp, List.take_of_length_le (by omega)]

theorem ipv6_host_text_witness :
    ∃ frame, (handleRequest (fun _ => .error (Error.transport 111))
        ⟨[5, 1, 0, 4, 0xfe, 0x80, 0, 0, 0, 0, 0, 0, 0, 1, 0, 0xab, 0, 0, 0x0a, 0xbc, 1, 187],
          Error.eof, [], []⟩).2.log
      = [] ++ [Event.dial "fe80::1:ab:0:abc:443", Event.write frame] :=
  (ipv6_host_text (fun _ => .error (Error.transport 111))
    ⟨[5, 1, 0, 4, 0xfe, 0x80, 0, 0, 0, 0, 0, 0, 0, 1, 0, 0xab, 0, 0, 0x0a, 0xbc, 1, 187],
      Error.eof, [], []⟩ 0 1 187
    [0xfe, 0x80, 0, 0, 0, 0, 0, 0, 0, 1, 0, 0xab, 0, 0, 0x0a, 0xbc] [] rfl rfl).1 rfl

end Socks5
